import Mathlib

/-!
Verification of the awsx2 resolution-and-tunnel-lifecycle engine
(src/aws/awsx2: aws.rs, tunnel.rs, models.rs, error.rs, main.rs).

The engine's pure logic is embedded shallowly: every function that shells
out to the AWS CLI, the OS process table, or the network takes the result
of that effect as an explicit parameter (an oracle), and the surrounding
control flow is translated line by line from the Rust source.  Rust
standard-library primitives (str::trim_start_matches, str::split,
u16::to_string, str::parse) are modelled by equivalent Lean functions on
lists of characters.
-/

namespace Awsx2

/-- Rust strings are modelled as lists of characters. -/
abbrev Str := List Char

/-- Model of Rust str::trim_start_matches: repeatedly removes the pattern
from the front of the string while it is a prefix. -/
def trimStartMatches (pat s : Str) : Str :=
  if h : pat.isPrefixOf s ∧ pat ≠ [] then
    trimStartMatches pat (s.drop pat.length)
  else s
termination_by s.length
decreasing_by
  have h1 : pat.length ≤ s.length := (List.isPrefixOf_iff_prefix.mp h.1).length_le
  have h2 : 0 < pat.length := List.length_pos.mpr h.2
  simp only [List.length_drop]
  omega

/-- Embedding of strip_url_to_host (aws.rs): strips the https:// scheme,
then the http:// scheme, keeps the part before the first '/', then the
part before the first ':'.  Rust's split('/').next() returns exactly the
part before the first separator, i.e. a takeWhile. -/
def strip_url_to_host_chars (input : Str) : Str :=
  ((trimStartMatches "http://".data (trimStartMatches "https://".data input)).takeWhile
      (fun c => c != '/')).takeWhile (fun c => c != ':')

/-- String-level wrapper of strip_url_to_host_chars. -/
def strip_url_to_host (input : String) : String :=
  ⟨strip_url_to_host_chars input.data⟩

-- Basic lemmas about the string helpers.

theorem trimStartMatches_of_not_prefixOf {pat s : Str}
    (h : ¬ pat.isPrefixOf s) : trimStartMatches pat s = s := by
  rw [trimStartMatches]
  simp [h]

theorem trimStartMatches_append {pat s : Str} (h : pat ≠ []) :
    trimStartMatches pat (pat ++ s) = trimStartMatches pat s := by
  rw [trimStartMatches]
  have hp : pat.isPrefixOf (pat ++ s) :=
    List.isPrefixOf_iff_prefix.mpr (List.prefix_append pat s)
  simp [hp, h, List.drop_left]

theorem trimStartMatches_of_not_mem {pat s : Str} {c : Char}
    (hc : c ∈ pat) (hs : c ∉ s) : trimStartMatches pat s = s := by
  apply trimStartMatches_of_not_prefixOf
  intro hpre
  exact hs ((List.isPrefixOf_iff_prefix.mp hpre).subset hc)

theorem mem_strip_chars {input : Str} {c : Char}
    (h : c ∈ strip_url_to_host_chars input) :
    c ∈ trimStartMatches "http://".data (trimStartMatches "https://".data input) ∧
      c ≠ '/' ∧ c ≠ ':' := by
  unfold strip_url_to_host_chars at h
  have h2 := List.mem_takeWhile_imp h
  have h1 : c ∈ (trimStartMatches "http://".data
      (trimStartMatches "https://".data input)).takeWhile (fun c => c != '/') :=
    List.takeWhile_subset _ h
  have h3 := List.mem_takeWhile_imp h1
  have h4 : c ∈ trimStartMatches "http://".data (trimStartMatches "https://".data input) :=
    List.takeWhile_subset _ h1
  refine ⟨h4, ?_, ?_⟩
  · simpa using h3
  · simpa using h2

theorem slash_not_mem_strip (input : Str) :
    '/' ∉ strip_url_to_host_chars input := by
  intro h
  exact (mem_strip_chars h).2.1 rfl

theorem colon_not_mem_strip (input : Str) :
    ':' ∉ strip_url_to_host_chars input := by
  intro h
  exact (mem_strip_chars h).2.2 rfl

theorem takeWhile_eq_self_of_forall {p : Char → Bool} {s : Str}
    (h : ∀ c ∈ s, p c = true) : s.takeWhile p = s := by
  induction s with
  | nil => simp
  | cons a t ih =>
    have ha := h a (by simp)
    simp only [List.takeWhile_cons, ha, if_true]
    rw [ih (fun c hc => h c (by simp [hc]))]

theorem strip_chars_of_clean {s : Str} (hs : ':' ∉ s) (hsl : '/' ∉ s) :
    strip_url_to_host_chars s = s := by
  unfold strip_url_to_host_chars
  have e1 : s.takeWhile (fun c => c != '/') = s :=
    takeWhile_eq_self_of_forall (fun c hc => by
      simp only [bne_iff_ne, ne_eq, decide_eq_true_eq]
      intro hcs; exact hsl (hcs ▸ hc))
  have e2 : s.takeWhile (fun c => c != ':') = s :=
    takeWhile_eq_self_of_forall (fun c hc => by
      simp only [bne_iff_ne, ne_eq, decide_eq_true_eq]
      intro hcs; exact hs (hcs ▸ hc))
  rw [trimStartMatches_of_not_mem (c := ':') (by decide) hs,
    trimStartMatches_of_not_mem (c := ':') (by decide) hs, e1, e2]

theorem strip_chars_idem (input : Str) :
    strip_url_to_host_chars (strip_url_to_host_chars input) =
      strip_url_to_host_chars input :=
  strip_chars_of_clean (colon_not_mem_strip input) (slash_not_mem_strip input)

theorem strip_chars_no_scheme (input : Str) :
    ¬ ("https://".data.isPrefixOf (strip_url_to_host_chars input)) ∧
      ¬ ("http://".data.isPrefixOf (strip_url_to_host_chars input)) := by
  constructor <;>
    · intro h
      have := (List.isPrefixOf_iff_prefix.mp h).subset (show ':' ∈ _ by decide)
      exact colon_not_mem_strip input this

theorem takeWhile_append_of_stop {p : Char → Bool} {h r : Str} {c : Char}
    (hall : ∀ x ∈ h, p x = true) (hc : p c = false) :
    (h ++ c :: r).takeWhile p = h := by
  induction h with
  | nil => simp [List.takeWhile_cons, hc]
  | cons a t ih =>
    have ha := hall a (by simp)
    simp only [List.cons_append, List.takeWhile_cons, ha, if_true]
    rw [ih (fun x hx => hall x (by simp [hx]))]

theorem https_data_eq : "https://".data = ['h', 't', 't', 'p', 's', ':', '/', '/'] := rfl

theorem http_data_eq : "http://".data = ['h', 't', 't', 'p', ':', '/', '/'] := rfl

theorem https_not_prefixOf_http (s : Str) :
    "https://".data.isPrefixOf ("http://".data ++ s) = false := by
  rw [https_data_eq, http_data_eq]
  simp [List.isPrefixOf]

theorem strip_chars_https_append (s : Str) :
    strip_url_to_host_chars ("https://".data ++ s) = strip_url_to_host_chars s := by
  unfold strip_url_to_host_chars
  rw [trimStartMatches_append (by decide)]

theorem strip_chars_http_append (s : Str)
    (h : ¬ "https://".data.isPrefixOf s) :
    strip_url_to_host_chars ("http://".data ++ s) = strip_url_to_host_chars s := by
  have e0 : ¬ "https://".data.isPrefixOf ("http://".data ++ s) := by
    rw [https_not_prefixOf_http]
    exact Bool.false_ne_true
  unfold strip_url_to_host_chars
  rw [trimStartMatches_of_not_prefixOf e0, trimStartMatches_append (by decide),
    trimStartMatches_of_not_prefixOf h]

theorem strip_chars_schemefree (s : Str)
    (h1 : ¬ "https://".data.isPrefixOf s) (h2 : ¬ "http://".data.isPrefixOf s) :
    strip_url_to_host_chars s =
      (s.takeWhile (fun c => c != '/')).takeWhile (fun c => c != ':') := by
  unfold strip_url_to_host_chars
  rw [trimStartMatches_of_not_prefixOf h1, trimStartMatches_of_not_prefixOf h2]

/-- C9: strip_url_to_host removes a leading https:// or http:// scheme,
truncates the remainder at the first '/' and then at the first ':', is
idempotent, and its output contains no '/' and no ':' and hence starts
with no scheme.  (Removing a leading http:// is stated for inputs whose
remainder does not itself start with https://, since the https:// strip
runs first in the source and would otherwise fire on the remainder.) -/
theorem claim_C9_strip_url_to_host (s : String) :
    strip_url_to_host ("https://" ++ s) = strip_url_to_host s ∧
    (¬ "https://".data.isPrefixOf s.data →
      strip_url_to_host ("http://" ++ s) = strip_url_to_host s) ∧
    (¬ "https://".data.isPrefixOf s.data → ¬ "http://".data.isPrefixOf s.data →
      (strip_url_to_host s).data =
        (s.data.takeWhile (fun c => c != '/')).takeWhile (fun c => c != ':')) ∧
    strip_url_to_host (strip_url_to_host s) = strip_url_to_host s ∧
    '/' ∉ (strip_url_to_host s).data ∧
    ':' ∉ (strip_url_to_host s).data ∧
    ¬ "https://".data.isPrefixOf (strip_url_to_host s).data ∧
    ¬ "http://".data.isPrefixOf (strip_url_to_host s).data := by
  refine ⟨?_, ?_, ?_, ?_, ?_, ?_, ?_, ?_⟩
  · exact congrArg String.mk
      (by rw [String.data_append, strip_chars_https_append])
  · intro h
    exact congrArg String.mk
      (by rw [String.data_append, strip_chars_http_append _ h])
  · intro h1 h2
    exact strip_chars_schemefree s.data h1 h2
  · exact congrArg String.mk (strip_chars_idem s.data)
  · exact slash_not_mem_strip s.data
  · exact colon_not_mem_strip s.data
  · exact (strip_chars_no_scheme s.data).1
  · exact (strip_chars_no_scheme s.data).2

/-- Witness for C9 at a concrete URL. -/
theorem claim_C9_witness :
    strip_url_to_host ("http://" ++ "api.internal:8443/path") =
      strip_url_to_host "api.internal:8443/path" ∧
    strip_url_to_host "api.internal:8443/path" = "api.internal" := by
  refine ⟨(claim_C9_strip_url_to_host "api.internal:8443/path").2.1 (by decide), ?_⟩
  apply congrArg String.mk
  rw [strip_chars_schemefree _ (by decide) (by decide)]
  decide

/-! Data model, translated from models.rs and error.rs. -/

inductive InstanceState where
  | Running
  | Stopped
  | Pending
  | Stopping
  | Other (raw : String)
deriving Repr, DecidableEq

/-- Embedding of InstanceState::from_str (models.rs). -/
def InstanceState.from_str (s : String) : InstanceState :=
  if s = "running" then .Running
  else if s = "stopped" then .Stopped
  else if s = "pending" then .Pending
  else if s = "stopping" then .Stopping
  else .Other s

inductive SsmStatus where
  | Online
  | Offline
  | Unknown
deriving Repr, DecidableEq

inductive TunnelStatus where
  | Active
  | Down
deriving Repr, DecidableEq

structure TunnelInfo where
  local_port : Nat
  remote_port : Nat
  remote_host : Option String
  status : TunnelStatus
deriving Repr, DecidableEq

structure Instance where
  id : String
  name : String
  instance_type : String
  state : InstanceState
  private_ip : Option String
  public_ip : Option String
  ssm_status : SsmStatus
  tunnel : Option TunnelInfo
  security_groups : List String
  security_group_ids : List String
deriving Repr, DecidableEq

structure BastionInfo where
  id : String
  name : String
  ssm_online : Bool
deriving Repr, DecidableEq

structure TunnelProcess where
  pid : Nat
  local_port : Nat
  remote_port : Nat
  remote_host : Option String
  instance_id : String
  instance_name : String
  port_open : Bool
  latency_ms : Option Nat
deriving Repr, DecidableEq

inductive TunnelTarget where
  | Ec2 (instance_id : String) (name : String)
  | RemoteViaBastion (bastion_id : String) (bastion_name : String)
      (target_host : String) (target_port : Nat)
deriving Repr, DecidableEq

/-- Embedding of AppError (error.rs); payloads carry the formatted text. -/
inductive AppError where
  | AwsCli (msg : String)
  | Json (msg : String)
  | Io (msg : String)
  | NoInstance (pat : String)
  | MultipleInstances (msg : String)
  | Tunnel (msg : String)
  | NoBastions
  | PortClosed (port : Nat)
  | Other (msg : String)
deriving Repr, DecidableEq

/-- Model of std::net::IpAddr. -/
inductive IpAddr where
  | v4 (a b c d : Nat)
  | v6 (segs : List Nat)
deriving Repr, DecidableEq

/-- Model of IpAddr::is_loopback: 127.x.x.x for v4, ::1 for v6. -/
def IpAddr.is_loopback : IpAddr → Bool
  | .v4 a _ _ _ => a == 127
  | .v6 segs => segs == [0, 0, 0, 0, 0, 0, 0, 1]

/-- Model of IpAddr's Display (addr.to_string()). -/
def IpAddr.render : IpAddr → String
  | .v4 a b c d =>
      toString a ++ "." ++ toString b ++ "." ++ toString c ++ "." ++ toString d
  | .v6 segs => ":".intercalate (segs.map toString)

/-! Inventory-level functions from aws.rs.  Every AWS CLI query result is
passed in as an explicit parameter: ssm_map is the result of
get_ssm_status, instances the result of list_instances, and so on. -/

/-- Model of Rust String::to_lowercase (character-wise lowering). -/
def toLowerStr (s : String) : String := ⟨s.data.map Char.toLower⟩

/-- Contiguous-substring test on character lists. -/
def containsSub : Str → Str → Bool
  | [], pat => pat.isEmpty
  | c :: tl, pat => pat.isPrefixOf (c :: tl) || containsSub tl pat

/-- Model of Rust str::contains with a string pattern (substring test). -/
def containsStr (hay pat : String) : Bool := containsSub hay.data pat.data

theorem containsSub_iff_isInfix (hay pat : Str) :
    containsSub hay pat = true ↔ pat <:+: hay := by
  induction hay with
  | nil => simp [containsSub, List.isEmpty_iff, List.infix_nil]
  | cons c tl ih =>
    rw [containsSub, List.infix_cons_iff, Bool.or_eq_true, ih,
      List.isPrefixOf_iff_prefix]

/-- Model of Rust str::starts_with (prefix test on the characters). -/
def startsWithStr (s pre : String) : Bool := pre.data.isPrefixOf s.data

/-- Model of HashMap::get on the ssm status map. -/
def lookupSsm (ssm_map : List (String × String)) (id : String) : Option String :=
  (ssm_map.find? (fun p => p.1 == id)).map (fun p => p.2)

/-- Embedding of find_instance_by_name (aws.rs): filters instances whose
lowercased name contains the lowercased pattern, then requires exactly one
match. -/
def find_instance_by_name (pattern : String) (instances : List Instance) :
    Except AppError Instance :=
  let pat_lower := toLowerStr pattern
  let matched := instances.filter (fun i => containsStr (toLowerStr i.name) pat_lower)
  match matched with
  | [] => .error (.NoInstance pattern)
  | [i] => .ok i
  | l => .error (.MultipleInstances
      (pattern ++ " (" ++ toString l.length ++ " matches)"))

/-- Embedding of find_bastions (aws.rs): running instances whose lowercased
name contains "bastion", with ssm_online looked up in the ssm map. -/
def find_bastions (ssm_map : List (String × String)) (instances : List Instance) :
    List BastionInfo :=
  (instances.filter (fun i =>
      containsStr (toLowerStr i.name) "bastion" && i.state == InstanceState.Running)).map
    (fun i => { id := i.id, name := i.name,
                ssm_online := lookupSsm ssm_map i.id == some "Online" })

/-- Embedding of resolve_dns_to_target (aws.rs).  addrs is the dns_lookup
result for the stripped host.  For each resolved address in order, the
inventory is scanned for a private-IP match; the first hit yields the Ec2
variant.  Otherwise the first ssm-online bastion relays, with target_host
the first resolved address if any (else the stripped host) and
target_port 443 for an https:// input, else 80. -/
def resolve_dns_to_target (input : String) (addrs : List IpAddr)
    (ssm_map : List (String × String)) (instances : List Instance) :
    Except AppError TunnelTarget :=
  let host := strip_url_to_host input
  match addrs.findSome? (fun addr =>
      instances.find? (fun i => i.private_ip == some (IpAddr.render addr))) with
  | some inst => .ok (.Ec2 inst.id inst.name)
  | none =>
    match (find_bastions ssm_map instances).find? (fun b => b.ssm_online) with
    | none => .error .NoBastions
    | some bastion =>
      let target_host := (addrs.head?.map IpAddr.render).getD host
      let target_port : Nat := if startsWithStr input "https://" then 443 else 80
      .ok (.RemoteViaBastion bastion.id bastion.name target_host target_port)

/-! Security-group permission scan (aws.rs, get_allowed_source_sgs and
find_ssm_hop_by_sgs).  The describe-security-groups response is modelled
structurally: each group carries its inbound permission rules. -/

structure IpPermission where
  ip_protocol : String
  from_port : Nat
  to_port : Nat
  user_id_group_pairs : List String
deriving Repr, DecidableEq

structure SecurityGroupDesc where
  ip_permissions : List IpPermission
deriving Repr, DecidableEq

/-- A rule admits the port when its protocol is the "-1" sentinel or the
port lies in [FromPort, ToPort] (aws.rs lines 456-463). -/
def perm_matches_port (perm : IpPermission) (port : Nat) : Bool :=
  perm.ip_protocol == "-1" ||
    (decide (perm.from_port ≤ port) && decide (port ≤ perm.to_port))

/-- Embedding of get_allowed_source_sgs (aws.rs): collects, de-duplicated
in encounter order, every source group id appearing in a port-matching
inbound rule of any of the described groups; short-circuits to [] when the
queried sg_ids list is empty. -/
def get_allowed_source_sgs (sg_ids : List String) (port : Nat)
    (sgs : List SecurityGroupDesc) : List String :=
  if sg_ids.isEmpty then []
  else
    sgs.foldl (fun allowed sg =>
      sg.ip_permissions.foldl (fun allowed perm =>
        if perm_matches_port perm port then
          perm.user_id_group_pairs.foldl (fun allowed gid =>
            if allowed.contains gid then allowed else allowed ++ [gid]) allowed
        else allowed) allowed) []

/-- Embedding of find_ssm_hop_by_sgs (aws.rs): first instance that is
ssm-online, running, and in one of the allowed groups; Ok none when no
instance qualifies, an error only when the inventory query itself failed. -/
def find_ssm_hop_by_sgs (allowed_sg_ids : List String)
    (instancesRes : Except AppError (List Instance)) :
    Except AppError (Option Instance) :=
  match instancesRes with
  | .error e => .error e
  | .ok instances =>
    .ok ((instances.filter (fun j =>
        j.ssm_status == SsmStatus.Online && j.state == InstanceState.Running)).find?
      (fun j => j.security_group_ids.any (fun sg => allowed_sg_ids.contains sg)))

/-! Name resolution with external fallback (aws.rs, dns_lookup and the
front of find_alb_for_hostname).  The system resolver outcome is passed as
an Except value; dig's answer for the same host as the external list. -/

/-- Embedding of dns_lookup: a resolution failure yields the empty list,
never an error. -/
def dns_lookup (res : Except String (List IpAddr)) : List IpAddr :=
  match res with
  | .ok addrs => addrs
  | .error _ => []

/-- Embedding of find_alb_for_hostname lines 321-328: when every locally
resolved address is loopback, the external resolver's answer replaces it
if non-empty. -/
def resolve_with_external_fallback (resolved external : List IpAddr) : List IpAddr :=
  if resolved.all (fun ip => ip.is_loopback) then
    if external.isEmpty then resolved else external
  else resolved

structure AlbDesc where
  dns_name : String
  arn : Option String
  resolved : List IpAddr
deriving Repr, DecidableEq

/-- Embedding of find_alb_for_hostname (aws.rs): resolves the host with the
loopback-aware fallback, drops loopback addresses, returns Ok none when
nothing remains, else the ARN of the first load balancer whose own DNS
addresses intersect the target set. -/
def find_alb_for_hostname (resolved external : List IpAddr) (albs : List AlbDesc) :
    Except AppError (Option String) :=
  let rs := resolve_with_external_fallback resolved external
  let target_ips := (rs.filter (fun a => !a.is_loopback)).map IpAddr.render
  if target_ips.isEmpty then .ok none
  else
    .ok (albs.findSome? (fun alb =>
      if alb.dns_name == "" then none
      else if (alb.resolved.map IpAddr.render).any (fun ip => target_ips.contains ip) then
        alb.arn
      else none))

instance {ε α : Type} [DecidableEq ε] [DecidableEq α] : DecidableEq (Except ε α)
  | .ok a, .ok b =>
    if h : a = b then .isTrue (h ▸ rfl) else .isFalse (fun he => h (Except.ok.inj he))
  | .ok _, .error _ => .isFalse (fun he => Except.noConfusion he)
  | .error _, .ok _ => .isFalse (fun he => Except.noConfusion he)
  | .error a, .error b =>
    if h : a = b then .isTrue (h ▸ rfl) else .isFalse (fun he => h (Except.error.inj he))

/-! Helper lemmas for resolve_dns_to_target. -/

/-- Spec-side predicate: the instance is a bastion (lowercased name contains
"bastion", lifecycle running) whose connectivity agent is online. -/
def is_online_bastion (ssm_map : List (String × String)) (i : Instance) : Prop :=
  "bastion".data <:+: (toLowerStr i.name).data ∧ i.state = InstanceState.Running ∧
    lookupSsm ssm_map i.id = some "Online"

theorem mem_find_bastions {ssm_map : List (String × String)} {instances : List Instance}
    {b : BastionInfo} :
    b ∈ find_bastions ssm_map instances ↔
      ∃ i ∈ instances,
        containsStr (toLowerStr i.name) "bastion" = true ∧ i.state = InstanceState.Running ∧
        b = ⟨i.id, i.name, lookupSsm ssm_map i.id == some "Online"⟩ := by
  simp only [find_bastions, List.mem_map, List.mem_filter, Bool.and_eq_true, beq_iff_eq]
  constructor
  · rintro ⟨i, ⟨hi, hc, hs⟩, rfl⟩
    exact ⟨i, hi, hc, hs, rfl⟩
  · rintro ⟨i, hi, hc, hs, rfl⟩
    exact ⟨i, ⟨hi, hc, hs⟩, rfl⟩

theorem exists_online_bastion_iff {ssm_map : List (String × String)}
    {instances : List Instance} :
    (∃ b ∈ find_bastions ssm_map instances, b.ssm_online = true) ↔
      ∃ i ∈ instances, is_online_bastion ssm_map i := by
  constructor
  · rintro ⟨b, hb, hon⟩
    obtain ⟨i, hi, hc, hs, rfl⟩ := mem_find_bastions.mp hb
    refine ⟨i, hi, ?_, hs, ?_⟩
    · rw [← containsSub_iff_isInfix]
      exact hc
    · simpa [beq_iff_eq] using hon
  · rintro ⟨i, hi, hc, hs, hon⟩
    refine ⟨⟨i.id, i.name, lookupSsm ssm_map i.id == some "Online"⟩, ?_, ?_⟩
    · exact mem_find_bastions.mpr ⟨i, hi, (containsSub_iff_isInfix _ _).mpr hc, hs, rfl⟩
    · simp [hon]

/-- No resolved address matches any instance's private IP. -/
def no_direct_match (addrs : List IpAddr) (instances : List Instance) : Prop :=
  ∀ a ∈ addrs, ∀ j ∈ instances, j.private_ip ≠ some (IpAddr.render a)

theorem findSome?_private_eq_none {addrs : List IpAddr} {instances : List Instance}
    (h : no_direct_match addrs instances) :
    addrs.findSome? (fun addr =>
      instances.find? (fun i => i.private_ip == some (IpAddr.render addr))) = none := by
  rw [List.findSome?_eq_none_iff]
  intro a ha
  rw [List.find?_eq_none]
  intro j hj
  simp only [beq_iff_eq]
  exact h a ha j hj

theorem resolve_dns_no_direct_online {input : String} {addrs : List IpAddr}
    {ssm_map : List (String × String)} {instances : List Instance}
    (h : no_direct_match addrs instances)
    (hb : ∃ i ∈ instances, is_online_bastion ssm_map i) :
    ∃ b, (find_bastions ssm_map instances).find? (fun b => b.ssm_online) = some b ∧
      resolve_dns_to_target input addrs ssm_map instances =
        .ok (.RemoteViaBastion b.id b.name
          ((addrs.head?.map IpAddr.render).getD (strip_url_to_host input))
          (if startsWithStr input "https://" then 443 else 80)) := by
  have hsome : ((find_bastions ssm_map instances).find? (fun b => b.ssm_online)).isSome := by
    rw [List.find?_isSome]
    obtain ⟨b, hb, hon⟩ := exists_online_bastion_iff.mpr hb
    exact ⟨b, hb, hon⟩
  obtain ⟨b, hbeq⟩ := Option.isSome_iff_exists.mp hsome
  refine ⟨b, hbeq, ?_⟩
  unfold resolve_dns_to_target
  rw [findSome?_private_eq_none h, hbeq]

theorem resolve_dns_no_direct_no_bastion {input : String} {addrs : List IpAddr}
    {ssm_map : List (String × String)} {instances : List Instance}
    (h : no_direct_match addrs instances)
    (hb : ∀ i ∈ instances, ¬ is_online_bastion ssm_map i) :
    resolve_dns_to_target input addrs ssm_map instances = .error .NoBastions := by
  have hnone : (find_bastions ssm_map instances).find? (fun b => b.ssm_online) = none := by
    rw [List.find?_eq_none]
    intro b hbmem hon
    exact absurd (exists_online_bastion_iff.mp ⟨b, hbmem, hon⟩)
      (by simpa using hb)
  unfold resolve_dns_to_target
  rw [findSome?_private_eq_none h, hnone]

/-- C1 (amended): when some resolved address equals a known instance's
PRIVATE address, resolve_dns_to_target returns the Ec2 variant for the
instance selected by: the earliest resolved address that has a private
match, and for that address the earliest matching instance in inventory
order — regardless of bastion or load-balancer state.  (The original
claim also admitted public-address matches and promised the first match
in inventory order across all addresses; both fail, see the
counterexample.) -/
theorem claim_C1_direct_match (input : String) (ssm_map : List (String × String))
    (as1 as2 : List IpAddr) (a : IpAddr) (pre post : List Instance) (i : Instance)
    (h1 : no_direct_match as1 (pre ++ i :: post))
    (h2 : i.private_ip = some (IpAddr.render a))
    (h3 : ∀ j ∈ pre, j.private_ip ≠ some (IpAddr.render a)) :
    resolve_dns_to_target input (as1 ++ a :: as2) ssm_map (pre ++ i :: post) =
      .ok (.Ec2 i.id i.name) := by
  have hfind : (pre ++ i :: post).find?
      (fun j => j.private_ip == some (IpAddr.render a)) = some i := by
    rw [List.find?_append]
    have hpre : pre.find? (fun j => j.private_ip == some (IpAddr.render a)) = none := by
      rw [List.find?_eq_none]
      intro j hj
      simp only [beq_iff_eq]
      exact h3 j hj
    rw [hpre]
    simp only [Option.none_or]
    rw [List.find?_cons_of_pos]
    simp only [beq_iff_eq]
    exact h2
  have hsome : (as1 ++ a :: as2).findSome? (fun addr =>
      (pre ++ i :: post).find? (fun j => j.private_ip == some (IpAddr.render addr))) =
      some i := by
    rw [List.findSome?_append, findSome?_private_eq_none h1, Option.none_or,
      List.findSome?_cons, hfind]
  unfold resolve_dns_to_target
  rw [hsome]

/-- C1 counterexample: (a) an instance whose PUBLIC address equals the
resolved address is not returned as a direct match — with no bastion the
resolution fails with NoBastions instead; (b) with two resolved addresses,
the winner is the instance matching the earlier address, not the earlier
matching instance in inventory order. -/
theorem claim_C1_counterexample :
    (let inst : Instance :=
      ⟨"i-pub", "web", "t3.micro", .Running, some "10.0.9.9", some "1.2.3.4",
        .Online, none, [], []⟩
     inst.public_ip = some (IpAddr.render (.v4 1 2 3 4)) ∧
      resolve_dns_to_target "http://web.example" [.v4 1 2 3 4] [] [inst] =
        .error .NoBastions) ∧
    (let i1 : Instance :=
      ⟨"i-one", "one", "t3.micro", .Running, some "10.0.0.2", none, .Online, none, [], []⟩
     let i2 : Instance :=
      ⟨"i-two", "two", "t3.micro", .Running, some "10.0.0.1", none, .Online, none, [], []⟩
     resolve_dns_to_target "http://db.example" [.v4 10 0 0 1, .v4 10 0 0 2] []
        [i1, i2] = .ok (.Ec2 "i-two" "two")) := by
  constructor
  · exact ⟨rfl, by decide⟩
  · decide

/-- Witness for the amended C1 theorem at a concrete inventory. -/
theorem claim_C1_witness :
    resolve_dns_to_target "http://svc.example" [.v4 10 0 0 7] []
      [⟨"i-a", "a", "t3.micro", .Running, some "10.0.0.8", none, .Online, none, [], []⟩,
       ⟨"i-b", "b", "t3.micro", .Running, some "10.0.0.7", none, .Online, none, [], []⟩] =
      .ok (.Ec2 "i-b" "b") := by
  have h := claim_C1_direct_match "http://svc.example" [] [] [] (.v4 10 0 0 7)
    [⟨"i-a", "a", "t3.micro", .Running, some "10.0.0.8", none, .Online, none, [], []⟩] []
    ⟨"i-b", "b", "t3.micro", .Running, some "10.0.0.7", none, .Online, none, [], []⟩
    (by intro x hx; simp at hx) (by decide)
    (by intro j hj; simp at hj; subst hj; decide)
  simpa using h

/-- C2: with no direct private-IP match, resolve_dns_to_target relays
through a bastion whenever one is connectivity-agent online — target_host
is the first resolved address if any, else the stripped host string, and
target_port is 443 for an https:// input, else 80 — and fails with
NoBastions when no online bastion exists. -/
theorem claim_C2_bastion_fallback (input : String) (addrs : List IpAddr)
    (ssm_map : List (String × String)) (instances : List Instance)
    (h : no_direct_match addrs instances) :
    ((∃ i ∈ instances, is_online_bastion ssm_map i) →
      ∃ bid bname, resolve_dns_to_target input addrs ssm_map instances =
        .ok (.RemoteViaBastion bid bname
          ((addrs.head?.map IpAddr.render).getD (strip_url_to_host input))
          (if startsWithStr input "https://" then 443 else 80))) ∧
    ((∀ i ∈ instances, ¬ is_online_bastion ssm_map i) →
      resolve_dns_to_target input addrs ssm_map instances = .error .NoBastions) := by
  constructor
  · intro hb
    obtain ⟨b, _, he⟩ := resolve_dns_no_direct_online h hb
    exact ⟨b.id, b.name, he⟩
  · exact resolve_dns_no_direct_no_bastion h

/-- Witness for C2: the spec's example scenario.  The host resolves to no
address, one bastion is online: the https:// input tunnels to port 443 on
the host itself; with the agent offline the same call fails NoBastions. -/
theorem claim_C2_witness :
    (∃ bid bname,
      resolve_dns_to_target "https://app.internal.example.test" []
          [("i-bast", "Online")]
          [⟨"i-bast", "bastion-1", "t3.micro", .Running, some "10.0.0.5", none,
            .Online, none, [], []⟩] =
        .ok (.RemoteViaBastion bid bname "app.internal.example.test" 443)) ∧
    resolve_dns_to_target "https://app.internal.example.test" [] []
        [⟨"i-bast", "bastion-1", "t3.micro", .Running, some "10.0.0.5", none,
          .Online, none, [], []⟩] =
      .error .NoBastions := by
  have hstrip : strip_url_to_host "https://app.internal.example.test" =
      "app.internal.example.test" := by
    apply String.ext
    show strip_url_to_host_chars ("https://app.internal.example.test").data = _
    have e0 : ("https://app.internal.example.test" : String).data =
        "https://".data ++ "app.internal.example.test".data := rfl
    rw [e0, strip_chars_https_append,
      strip_chars_schemefree _ (by decide) (by decide)]
    decide
  constructor
  · have h := (claim_C2_bastion_fallback "https://app.internal.example.test" []
      [("i-bast", "Online")]
      [⟨"i-bast", "bastion-1", "t3.micro", .Running, some "10.0.0.5", none,
        .Online, none, [], []⟩]
      (by intro a ha; simp at ha)).1
      (by
        refine ⟨⟨"i-bast", "bastion-1", "t3.micro", .Running, some "10.0.0.5", none,
          .Online, none, [], []⟩, by simp, ?_, rfl, rfl⟩
        exact (containsSub_iff_isInfix _ _).mp (by decide))
    simpa [hstrip, startsWithStr] using h
  · exact (claim_C2_bastion_fallback "https://app.internal.example.test" [] []
      [⟨"i-bast", "bastion-1", "t3.micro", .Running, some "10.0.0.5", none,
        .Online, none, [], []⟩]
      (by intro a ha; simp at ha)).2
      (by
        intro i hi
        simp only [List.mem_singleton] at hi
        subst hi
        intro hob
        exact absurd hob.2.2 (by decide))

/-! C3: characterization of the permission scan and the hop selector. -/

/-- Spec-side predicate: some inbound rule of some described group admits
the port (protocol sentinel "-1" or from <= port <= to) and lists gid as a
source group. -/
def rule_allows (sgs : List SecurityGroupDesc) (port : Nat) (gid : String) : Prop :=
  ∃ sg ∈ sgs, ∃ perm ∈ sg.ip_permissions,
    (perm.ip_protocol = "-1" ∨ (perm.from_port ≤ port ∧ port ≤ perm.to_port)) ∧
    gid ∈ perm.user_id_group_pairs

/-- Spec-side predicate: the instance qualifies as a hop. -/
def hop_qualifies (allowed : List String) (i : Instance) : Prop :=
  i.ssm_status = SsmStatus.Online ∧ i.state = InstanceState.Running ∧
    ∃ sg ∈ i.security_group_ids, sg ∈ allowed

theorem perm_matches_port_iff (perm : IpPermission) (port : Nat) :
    perm_matches_port perm port = true ↔
      (perm.ip_protocol = "-1" ∨ (perm.from_port ≤ port ∧ port ≤ perm.to_port)) := by
  simp [perm_matches_port]

theorem mem_dedup_push (l acc : List String) (x : String) :
    (x ∈ l.foldl (fun a g => if a.contains g then a else a ++ [g]) acc) ↔
      x ∈ acc ∨ x ∈ l := by
  induction l generalizing acc with
  | nil => simp
  | cons g t ih =>
    simp only [List.foldl_cons]
    by_cases hg : acc.contains g = true
    · rw [if_pos hg, ih]
      have hmem : g ∈ acc := by
        rw [List.contains_iff_exists_mem_beq] at hg
        obtain ⟨y, hy, hxy⟩ := hg
        rw [beq_iff_eq] at hxy
        exact hxy ▸ hy

      constructor
      · rintro (h | h)
        · exact Or.inl h
        · exact Or.inr (List.mem_cons_of_mem _ h)
      · rintro (h | h)
        · exact Or.inl h
        · rcases List.mem_cons.mp h with rfl | h
          · exact Or.inl hmem
          · exact Or.inr h
    · rw [if_neg hg, ih]
      simp only [List.mem_append, List.mem_singleton, List.mem_cons]
      tauto

theorem mem_perm_fold (perms : List IpPermission) (port : Nat) (acc : List String)
    (x : String) :
    (x ∈ perms.foldl (fun allowed perm =>
        if perm_matches_port perm port then
          perm.user_id_group_pairs.foldl (fun allowed gid =>
            if allowed.contains gid then allowed else allowed ++ [gid]) allowed
        else allowed) acc) ↔
      x ∈ acc ∨ ∃ perm ∈ perms, perm_matches_port perm port = true ∧
        x ∈ perm.user_id_group_pairs := by
  induction perms generalizing acc with
  | nil => simp
  | cons p t ih =>
    simp only [List.foldl_cons]
    by_cases hp : perm_matches_port p port = true
    · rw [if_pos hp, ih, mem_dedup_push]
      simp only [List.mem_cons]
      constructor
      · rintro ((h | h) | h)
        · exact Or.inl h
        · exact Or.inr ⟨p, Or.inl rfl, hp, h⟩
        · obtain ⟨q, hq, hm, hx⟩ := h
          exact Or.inr ⟨q, Or.inr hq, hm, hx⟩
      · rintro (h | ⟨q, hq | hq, hm, hx⟩)
        · exact Or.inl (Or.inl h)
        · subst hq
          exact Or.inl (Or.inr hx)
        · exact Or.inr ⟨q, hq, hm, hx⟩
    · rw [if_neg hp, ih]
      constructor
      · rintro (h | ⟨q, hq, hm, hx⟩)
        · exact Or.inl h
        · exact Or.inr ⟨q, List.mem_cons_of_mem _ hq, hm, hx⟩
      · rintro (h | ⟨q, hq, hm, hx⟩)
        · exact Or.inl h
        · rcases List.mem_cons.mp hq with rfl | hq
          · exact absurd hm hp
          · exact Or.inr ⟨q, hq, hm, hx⟩

theorem mem_sg_fold (sgs : List SecurityGroupDesc) (port : Nat) (acc : List String)
    (x : String) :
    (x ∈ sgs.foldl (fun allowed sg =>
        sg.ip_permissions.foldl (fun allowed perm =>
          if perm_matches_port perm port then
            perm.user_id_group_pairs.foldl (fun allowed gid =>
              if allowed.contains gid then allowed else allowed ++ [gid]) allowed
          else allowed) allowed) acc) ↔
      x ∈ acc ∨ ∃ sg ∈ sgs, ∃ perm ∈ sg.ip_permissions,
        perm_matches_port perm port = true ∧ x ∈ perm.user_id_group_pairs := by
  induction sgs generalizing acc with
  | nil => simp
  | cons s t ih =>
    simp only [List.foldl_cons]
    rw [ih, mem_perm_fold]
    simp only [List.mem_cons]
    constructor
    · rintro ((h | ⟨q, hq, hm, hx⟩) | ⟨g, hg, q, hq, hm, hx⟩)
      · exact Or.inl h
      · exact Or.inr ⟨s, Or.inl rfl, q, hq, hm, hx⟩
      · exact Or.inr ⟨g, Or.inr hg, q, hq, hm, hx⟩
    · rintro (h | ⟨g, hg | hg, q, hq, hm, hx⟩)
      · exact Or.inl (Or.inl h)
      · subst hg
        exact Or.inl (Or.inr ⟨q, hq, hm, hx⟩)
      · exact Or.inr ⟨g, hg, q, hq, hm, hx⟩

theorem hop_qualifies_iff_bool (allowed : List String) (i : Instance) :
    hop_qualifies allowed i ↔
      ((i.ssm_status == SsmStatus.Online && i.state == InstanceState.Running) = true ∧
        (i.security_group_ids.any (fun sg => allowed.contains sg)) = true) := by
  simp [hop_qualifies, List.any_eq_true, List.contains_iff_exists_mem_beq, and_assoc]

/-- C3: the permitted source groups computed by get_allowed_source_sgs are
exactly those appearing in an inbound rule whose protocol is the "-1"
sentinel or whose range satisfies from <= port <= to (given a non-empty
queried group list); and find_ssm_hop_by_sgs returns the first inventory
instance that is ssm-online, running, and member of at least one allowed
group — and Ok none (not an error) when no instance qualifies. -/
theorem claim_C3_permission_scan_and_hop :
    (∀ (sg_ids : List String) (port : Nat) (sgs : List SecurityGroupDesc) (gid : String),
      gid ∈ get_allowed_source_sgs sg_ids port sgs ↔
        (sg_ids ≠ [] ∧ rule_allows sgs port gid)) ∧
    (∀ (allowed : List String) (pre post : List Instance) (i : Instance),
      hop_qualifies allowed i → (∀ j ∈ pre, ¬ hop_qualifies allowed j) →
      find_ssm_hop_by_sgs allowed (.ok (pre ++ i :: post)) = .ok (some i)) ∧
    (∀ (allowed : List String) (instances : List Instance),
      (∀ i ∈ instances, ¬ hop_qualifies allowed i) →
      find_ssm_hop_by_sgs allowed (.ok instances) = .ok none) := by
  refine ⟨?_, ?_, ?_⟩
  · intro sg_ids port sgs gid
    unfold get_allowed_source_sgs
    by_cases hempty : sg_ids.isEmpty
    · rw [if_pos hempty]
      simp only [List.not_mem_nil, false_iff, not_and]
      intro hne
      exact absurd (List.isEmpty_iff.mp hempty) hne
    · rw [if_neg hempty, mem_sg_fold]
      simp only [List.not_mem_nil, false_or]
      unfold rule_allows
      constructor
      · rintro ⟨sg, hsg, perm, hperm, hm, hx⟩
        exact ⟨fun hn => hempty (by simp [hn]),
          sg, hsg, perm, hperm, (perm_matches_port_iff _ _).mp hm, hx⟩
      · rintro ⟨_, sg, hsg, perm, hperm, hm, hx⟩
        exact ⟨sg, hsg, perm, hperm, (perm_matches_port_iff _ _).mpr hm, hx⟩
  · intro allowed pre post i hi hpre
    obtain ⟨hb1, hb2⟩ := (hop_qualifies_iff_bool allowed i).mp hi
    show Except.ok _ = Except.ok (some i)
    have hfilter : (pre ++ i :: post).filter (fun j =>
        j.ssm_status == SsmStatus.Online && j.state == InstanceState.Running) =
        pre.filter (fun j =>
          j.ssm_status == SsmStatus.Online && j.state == InstanceState.Running) ++
        i :: post.filter (fun j =>
          j.ssm_status == SsmStatus.Online && j.state == InstanceState.Running) := by
      rw [List.filter_append]
      simp only [List.filter_cons, hb1, if_true]
    rw [hfilter, List.find?_append]
    have hnone : (pre.filter (fun j =>
        j.ssm_status == SsmStatus.Online && j.state == InstanceState.Running)).find?
        (fun j => j.security_group_ids.any (fun sg => allowed.contains sg)) = none := by
      rw [List.find?_eq_none]
      intro j hj
      have hjm := List.mem_filter.mp hj
      intro hany
      exact hpre j hjm.1 ((hop_qualifies_iff_bool allowed j).mpr ⟨hjm.2, hany⟩)
    rw [hnone]
    simp only [Option.none_or]
    exact congrArg Except.ok (List.find?_cons_of_pos _ hb2)
  · intro allowed instances hno
    show Except.ok _ = Except.ok none
    have hfe : (instances.filter (fun j =>
        j.ssm_status == SsmStatus.Online && j.state == InstanceState.Running)).find?
        (fun j => j.security_group_ids.any (fun sg => allowed.contains sg)) = none := by
      rw [List.find?_eq_none]
      intro j hj hany
      have hjm := List.mem_filter.mp hj
      exact hno j hjm.1 ((hop_qualifies_iff_bool allowed j).mpr ⟨hjm.2, hany⟩)
    rw [hfe]

/-- Witness for C3: the spec's hop-selection example — port 8080 admitted
only from sg-relay; i-relay, the sole online running member of sg-relay,
is selected over a non-member and an offline member. -/
theorem claim_C3_witness :
    (let sgs := [SecurityGroupDesc.mk
      [⟨"tcp", 8080, 8080, ["sg-relay"]⟩, ⟨"tcp", 22, 22, ["sg-admin"]⟩]]
     "sg-relay" ∈ get_allowed_source_sgs ["sg-target"] 8080 sgs ∧
       "sg-admin" ∉ get_allowed_source_sgs ["sg-target"] 8080 sgs) ∧
    find_ssm_hop_by_sgs ["sg-relay"]
        (.ok [⟨"i-other", "other", "t3.micro", .Running, none, none, .Online,
                none, [], ["sg-x"]⟩,
              ⟨"i-relay", "relay", "t3.micro", .Running, none, none, .Online,
                none, [], ["sg-relay"]⟩,
              ⟨"i-late", "late", "t3.micro", .Running, none, none, .Online,
                none, [], ["sg-relay"]⟩]) =
      .ok (some ⟨"i-relay", "relay", "t3.micro", .Running, none, none, .Online,
        none, [], ["sg-relay"]⟩) := by
  constructor
  · constructor
    · exact (claim_C3_permission_scan_and_hop.1 ["sg-target"] 8080 _ "sg-relay").mpr
        (by unfold rule_allows; decide)
    · intro hmem
      exact absurd
        ((claim_C3_permission_scan_and_hop.1 ["sg-target"] 8080 _ "sg-admin").mp hmem)
        (by unfold rule_allows; decide)
  · exact claim_C3_permission_scan_and_hop.2.1 ["sg-relay"]
      [⟨"i-other", "other", "t3.micro", .Running, none, none, .Online, none, [], ["sg-x"]⟩]
      [⟨"i-late", "late", "t3.micro", .Running, none, none, .Online, none, [], ["sg-relay"]⟩]
      _
      ⟨rfl, rfl, "sg-relay", by simp, by simp⟩
      (by
        intro j hj
        simp only [List.mem_singleton] at hj
        subst hj
        rintro ⟨-, -, sg, hsg, hmem⟩
        simp only [List.mem_singleton] at hsg
        subst hsg
        simp at hmem)

/-- C7: name resolution uses the ambient system resolver's answer as-is
whenever it contains a non-loopback address; when every returned address
is loopback it re-queries the external resolver and substitutes that
answer iff it is non-empty; a failed lookup yields the empty set rather
than an error; and callers treat an empty answer as possibly-internal:
find_alb_for_hostname reports Ok none and resolve_dns_to_target proceeds
to the bastion relay. -/
theorem claim_C7_name_resolution :
    (∀ e : String, dns_lookup (.error e) = []) ∧
    (∀ l : List IpAddr, dns_lookup (.ok l) = l) ∧
    (∀ resolved external : List IpAddr,
      (∃ a ∈ resolved, a.is_loopback = false) →
      resolve_with_external_fallback resolved external = resolved) ∧
    (∀ resolved external : List IpAddr,
      (∀ a ∈ resolved, a.is_loopback = true) → external ≠ [] →
      resolve_with_external_fallback resolved external = external) ∧
    (∀ resolved external : List IpAddr,
      (∀ a ∈ resolved, a.is_loopback = true) → external = [] →
      resolve_with_external_fallback resolved external = resolved) ∧
    (∀ albs : List AlbDesc, find_alb_for_hostname [] [] albs = .ok none) ∧
    (∀ (input : String) (ssm_map : List (String × String)) (instances : List Instance),
      (∃ i ∈ instances, is_online_bastion ssm_map i) →
      ∃ bid bname, resolve_dns_to_target input [] ssm_map instances =
        .ok (.RemoteViaBastion bid bname (strip_url_to_host input)
          (if startsWithStr input "https://" then 443 else 80))) := by
  refine ⟨fun e => rfl, fun l => rfl, ?_, ?_, ?_, fun albs => rfl, ?_⟩
  · intro resolved external ⟨a, ha, hf⟩
    unfold resolve_with_external_fallback
    rw [if_neg]
    intro hall
    rw [List.all_eq_true] at hall
    exact absurd (hall a ha) (by simp [hf])
  · intro resolved external hall hne
    unfold resolve_with_external_fallback
    rw [if_pos (List.all_eq_true.mpr hall), if_neg]
    intro hemp
    exact hne (List.isEmpty_iff.mp hemp)
  · intro resolved external hall hemp
    unfold resolve_with_external_fallback
    rw [if_pos (List.all_eq_true.mpr hall), if_pos (by simp [hemp])]
  · intro input ssm_map instances hb
    obtain ⟨b, _, he⟩ := @resolve_dns_no_direct_online input [] ssm_map instances
      (by intro a ha; simp at ha) hb
    refine ⟨b.id, b.name, ?_⟩
    simpa using he

/-- Witness for C7 at concrete resolver answers: a mixed local answer is
kept even when an external answer exists; an all-loopback local answer is
replaced by the non-empty external answer. -/
theorem claim_C7_witness :
    resolve_with_external_fallback [.v4 127 0 0 1, .v4 10 0 0 1] [.v4 9 9 9 9] =
      [.v4 127 0 0 1, .v4 10 0 0 1] ∧
    resolve_with_external_fallback [.v4 127 0 0 1] [.v4 93 184 216 34] =
      [.v4 93 184 216 34] := by
  constructor
  · exact claim_C7_name_resolution.2.2.1 _ _ ⟨.v4 10 0 0 1, by simp, by decide⟩
  · exact claim_C7_name_resolution.2.2.2.1 _ _ (by decide) (by decide)

/-! Tunnel supervisor (tunnel.rs).  Network and process effects enter as
oracles: opened_within t answers whether the local port accepted a TCP
connection within a t-second poll window (the wait_for_port loop), and
probe is probe_remote's outcome — some latency in ms when the remote end
answered the HTTP HEAD within 5 s, none otherwise.  Each function returns,
besides its result, the list of pids passed to stop_tunnel (SIGTERM), so
cleanup behaviour is part of the embedding. -/

structure ProbeEnv where
  opened_within : Nat → Bool
  probe : Option Nat

/-- Embedding of wait_for_port (tunnel.rs): Ok once the port accepts
within the timeout, else the PortClosed failure. -/
def wait_for_port (port : Nat) (timeout_secs : Nat) (e : ProbeEnv) : Except AppError Unit :=
  if e.opened_within timeout_secs then .ok () else .error (.PortClosed port)

/-- Embedding of wait_and_probe (tunnel.rs): kills the spawned pid and
propagates the failure when the port never opens; then probes the remote
end, killing the pid and reporting the tunnel error when it stays silent;
returns the measured latency on success. -/
def wait_and_probe (port pid timeout_secs : Nat) (e : ProbeEnv) :
    Except AppError Nat × List Nat :=
  match wait_for_port port timeout_secs e with
  | .error err => (.error err, [pid])
  | .ok () =>
    match e.probe with
    | some ms => (.ok ms, [])
    | none => (.error (.Tunnel ("Remote service unreachable — no response on port "
        ++ toString port ++ " within 5 s")), [pid])

/-- Embedding of start_tunnel_by_pattern (tunnel.rs): resolves the unique
pattern match, spawns the forwarding agent (pid is the oracle for the
spawn), and runs wait_and_probe with the 20 s port timeout. -/
def start_tunnel_by_pattern (pattern : String) (local_port remote_port : Nat)
    (instances : List Instance) (pid : Nat) (e : ProbeEnv) :
    Except AppError TunnelProcess × List Nat :=
  match find_instance_by_name pattern instances with
  | .error err => (.error err, [])
  | .ok inst =>
    match wait_and_probe local_port pid 20 e with
    | (.error err, ks) => (.error err, ks)
    | (.ok ms, ks) =>
      (.ok ⟨pid, local_port, remote_port, none, inst.id, inst.name, true, some ms⟩, ks)

/-- Embedding of start_remote_tunnel_via_pattern (tunnel.rs): like
start_tunnel_by_pattern but relaying to host through the matched bastion,
with the same 20 s port timeout. -/
def start_remote_tunnel_via_pattern (bastion_pattern host : String)
    (local_port remote_port : Nat) (instances : List Instance) (pid : Nat) (e : ProbeEnv) :
    Except AppError TunnelProcess × List Nat :=
  match find_instance_by_name bastion_pattern instances with
  | .error err => (.error err, [])
  | .ok bastion =>
    match wait_and_probe local_port pid 20 e with
    | (.error err, ks) => (.error err, ks)
    | (.ok ms, ks) =>
      (.ok ⟨pid, local_port, remote_port, some host, bastion.id, bastion.name, true, some ms⟩,
        ks)

inductive TunnelEvent where
  | spawned (bastion_id : String) (pid : Nat)
  | killed (pid : Nat)
  | slept (secs : Nat)
deriving Repr, DecidableEq

/-- Embedding of the loop body of start_url_tunnel_via_any_bastion
(tunnel.rs): each attempt spawns through the next online bastion (env k
supplies the spawned pid and the probe oracle of attempt k), probes with
the 10 s port timeout, and on failure stops the tunnel again and sleeps
2 s before the next candidate. -/
def bastion_attempts (host : String) (local_port remote_port : Nat)
    (env : Nat → Nat × ProbeEnv) :
    Nat → List BastionInfo → Option TunnelProcess × List TunnelEvent
  | _, [] => (none, [])
  | k, b :: rest =>
    let pid := (env k).1
    match wait_and_probe local_port pid 10 (env k).2 with
    | (.ok ms, _) =>
      (some ⟨pid, local_port, remote_port, some host, b.id, b.name, true, some ms⟩,
        [.spawned b.id pid])
    | (.error _, ks) =>
      let r := bastion_attempts host local_port remote_port env (k + 1) rest
      (r.1, .spawned b.id pid :: (ks.map .killed ++ [.killed pid, .slept 2] ++ r.2))

/-- Embedding of start_url_tunnel_via_any_bastion (tunnel.rs): derives
host and remote port from the url (443 for https://, else 80), fails
NoBastions when no ssm-online bastion exists, else tries each online
bastion in order, returning the aggregate failure naming the number of
bastions tried when every attempt fails. -/
def start_url_tunnel_via_any_bastion (url : String) (local_port : Nat)
    (ssm_map : List (String × String)) (instances : List Instance)
    (env : Nat → Nat × ProbeEnv) :
    Except AppError TunnelProcess × List TunnelEvent :=
  let host := strip_url_to_host url
  let remote_port : Nat := if startsWithStr url "https://" then 443 else 80
  let online_bastions := (find_bastions ssm_map instances).filter (fun b => b.ssm_online)
  if online_bastions.isEmpty then (.error .NoBastions, [])
  else
    match bastion_attempts host local_port remote_port env 0 online_bastions with
    | (some tp, evs) => (.ok tp, evs)
    | (none, evs) =>
      (.error (.Tunnel ("All " ++ toString online_bastions.length ++
        " bastion(s) failed to tunnel to " ++ host ++ ":" ++ toString remote_port)), evs)

/-- Embedding of the Cmd::Tunnel branch of run_cli (main.rs lines
274-282): when test_port reports the local port already accepting, the
command prints a notice and returns Ok WITHOUT invoking the tunnel start;
otherwise the start runs.  The boolean records whether
start_tunnel_by_pattern was invoked (only then can a process be spawned). -/
def run_cli_tunnel (pattern : String) (local_port remote_port : Nat)
    (port_in_use : Bool) (instances : List Instance) (pid : Nat) (e : ProbeEnv) :
    Except AppError Unit × Bool :=
  if port_in_use then (.ok (), false)
  else
    match (start_tunnel_by_pattern pattern local_port remote_port instances pid e).1 with
    | .ok _ => (.ok (), true)
    | .error err => (.error err, true)

/-- C4: if the local port never opens within the bounded timeout,
wait_and_probe reports PortClosed; if it opens but the remote end stays
silent for the 5 s probe window, it reports the tunnel error; in both
cases the spawned pid is terminated (it appears in the kill list), and on
success nothing is killed. -/
theorem claim_C4_wait_and_probe (port pid timeout_secs : Nat) (e : ProbeEnv) :
    (e.opened_within timeout_secs = false →
      wait_and_probe port pid timeout_secs e = (.error (.PortClosed port), [pid])) ∧
    (e.opened_within timeout_secs = true → e.probe = none →
      wait_and_probe port pid timeout_secs e =
        (.error (.Tunnel ("Remote service unreachable — no response on port "
          ++ toString port ++ " within 5 s")), [pid])) ∧
    (∀ ms, e.opened_within timeout_secs = true → e.probe = some ms →
      wait_and_probe port pid timeout_secs e = (.ok ms, [])) ∧
    (∀ err, (wait_and_probe port pid timeout_secs e).1 = .error err →
      pid ∈ (wait_and_probe port pid timeout_secs e).2) := by
  refine ⟨?_, ?_, ?_, ?_⟩
  · intro hop
    unfold wait_and_probe wait_for_port
    rw [hop]
    rfl
  · intro hop hpr
    unfold wait_and_probe wait_for_port
    rw [hop, hpr]
    rfl
  · intro ms hop hpr
    unfold wait_and_probe wait_for_port
    rw [hop, hpr]
    rfl
  · intro err
    unfold wait_and_probe wait_for_port
    by_cases hop : e.opened_within timeout_secs
    · rw [hop]
      cases hpr : e.probe with
      | some ms => simp
      | none => simp
    · simp only [hop]
      simp

/-- Witness for C4 at concrete oracles: a port that never opens, a port
that opens with a silent remote, and a healthy tunnel. -/
theorem claim_C4_witness :
    wait_and_probe 8080 4242 20 ⟨fun _ => false, some 12⟩ =
      (.error (.PortClosed 8080), [4242]) ∧
    wait_and_probe 8080 4242 20 ⟨fun _ => true, none⟩ =
      (.error (.Tunnel "Remote service unreachable — no response on port 8080 within 5 s"),
        [4242]) ∧
    wait_and_probe 8080 4242 20 ⟨fun _ => true, some 12⟩ = (.ok 12, []) := by
  refine ⟨(claim_C4_wait_and_probe 8080 4242 20 _).1 rfl, ?_, ?_⟩
  · have h := (claim_C4_wait_and_probe 8080 4242 20 ⟨fun _ => true, none⟩).2.1 rfl rfl
    rw [h]
    have : ("Remote service unreachable — no response on port "
        ++ toString 8080 ++ " within 5 s")
        = "Remote service unreachable — no response on port 8080 within 5 s" := by decide
    rw [this]
  · exact (claim_C4_wait_and_probe 8080 4242 20 _).2.2.1 12 rfl rfl

/-- C5 counterexample: with the local port already accepting connections,
the Tunnel command returns SUCCESS (after printing a notice) — it does not
fail, and error.rs defines no PortAlreadyInUse variant at all — though
indeed no tunnel start is invoked. -/
theorem claim_C5_counterexample :
    (run_cli_tunnel "web" 8080 80 true [] 0 ⟨fun _ => false, none⟩).1 = .ok () ∧
    (run_cli_tunnel "web" 8080 80 true [] 0 ⟨fun _ => false, none⟩).2 = false :=
  ⟨rfl, rfl⟩

/-- C5 (amended): when the requested local port already accepts
connections, the CLI returns immediately without ever invoking the tunnel
start (so no process is spawned); the outcome is success with a printed
notice, not a typed PortAlreadyInUse error — AppError has no such
variant. -/
theorem claim_C5_port_in_use (pattern : String) (local_port remote_port : Nat)
    (instances : List Instance) (pid : Nat) (e : ProbeEnv) :
    run_cli_tunnel pattern local_port remote_port true instances pid e =
      (.ok (), false) := rfl

/-! C6 helpers: behaviour of the multi-bastion fallback loop. -/

/-- Attempt k fails: its port never opens within the 10 s window, or the
remote never answers the probe. -/
def attempt_fails (p : Nat × ProbeEnv) : Prop :=
  p.2.opened_within 10 = false ∨ p.2.probe = none

theorem wait_and_probe_err {lp pid : Nat} {e : ProbeEnv} (t : Nat)
    (h : e.opened_within t = false ∨ e.probe = none) :
    ∃ err, wait_and_probe lp pid t e = (.error err, [pid]) := by
  rcases h with h | h
  · refine ⟨.PortClosed lp, ?_⟩
    unfold wait_and_probe wait_for_port
    rw [h]
    rfl
  · by_cases hop : e.opened_within t = true
    · refine ⟨.Tunnel ("Remote service unreachable — no response on port "
        ++ toString lp ++ " within 5 s"), ?_⟩
      unfold wait_and_probe wait_for_port
      rw [hop, h]
      rfl
    · refine ⟨.PortClosed lp, ?_⟩
      unfold wait_and_probe wait_for_port
      rw [Bool.eq_false_iff.mpr hop]
      rfl

theorem wait_and_probe_ok {lp pid t ms : Nat} {e : ProbeEnv}
    (h1 : e.opened_within t = true) (h2 : e.probe = some ms) :
    wait_and_probe lp pid t e = (.ok ms, []) := by
  unfold wait_and_probe wait_for_port
  rw [h1, h2]
  rfl

theorem beq_spawned_slept (x : String) (y n : Nat) :
    (TunnelEvent.spawned x y == TunnelEvent.slept n) = false := by
  rw [beq_eq_false_iff_ne]
  exact fun h => TunnelEvent.noConfusion h

theorem beq_killed_slept (x n : Nat) :
    (TunnelEvent.killed x == TunnelEvent.slept n) = false := by
  rw [beq_eq_false_iff_ne]
  exact fun h => TunnelEvent.noConfusion h

theorem bastion_attempts_cons_fail {host : String} {lp rp : Nat}
    {env : Nat → Nat × ProbeEnv} {b : BastionInfo} {rest : List BastionInfo} {k : Nat}
    (hf : attempt_fails (env k)) :
    bastion_attempts host lp rp env k (b :: rest) =
      ((bastion_attempts host lp rp env (k + 1) rest).1,
        .spawned b.id (env k).1 :: .killed (env k).1 :: .killed (env k).1 :: .slept 2 ::
          (bastion_attempts host lp rp env (k + 1) rest).2) := by
  obtain ⟨err, herr⟩ := @wait_and_probe_err lp (env k).1 (env k).2 10 hf
  simp only [bastion_attempts]
  rw [herr]
  rfl

theorem bastion_attempts_cons_ok {host : String} {lp rp : Nat}
    {env : Nat → Nat × ProbeEnv} {b : BastionInfo} {rest : List BastionInfo} {k ms : Nat}
    (h1 : (env k).2.opened_within 10 = true) (h2 : (env k).2.probe = some ms) :
    bastion_attempts host lp rp env k (b :: rest) =
      (some ⟨(env k).1, lp, rp, some host, b.id, b.name, true, some ms⟩,
        [.spawned b.id (env k).1]) := by
  simp only [bastion_attempts]
  rw [wait_and_probe_ok h1 h2]

theorem bastion_attempts_all_fail (host : String) (lp rp : Nat)
    (env : Nat → Nat × ProbeEnv) :
    ∀ (bs : List BastionInfo) (k : Nat),
      (∀ j, j < bs.length → attempt_fails (env (k + j))) →
      (bastion_attempts host lp rp env k bs).1 = none ∧
      (bastion_attempts host lp rp env k bs).2.count (.slept 2) = bs.length ∧
      (∀ j, j < bs.length →
        TunnelEvent.killed (env (k + j)).1 ∈ (bastion_attempts host lp rp env k bs).2) := by
  intro bs
  induction bs with
  | nil =>
    intro k _
    refine ⟨rfl, rfl, ?_⟩
    intro j hj
    exact absurd hj (by simp)
  | cons b rest ih =>
    intro k h
    have hf : attempt_fails (env k) := by
      have := h 0 (by simp)
      simpa using this
    have hrest := ih (k + 1) (fun j hj => by
      have := h (j + 1) (by simpa using Nat.succ_lt_succ hj)
      rwa [show k + (j + 1) = k + 1 + j by omega] at this)
    rw [bastion_attempts_cons_fail hf]
    refine ⟨hrest.1, ?_, ?_⟩
    · simp [List.count_cons, beq_spawned_slept, beq_killed_slept, hrest.2.1]
    · intro j hj
      cases j with
      | zero =>
        simp
      | succ j =>
        have hm := hrest.2.2 j (by simpa using Nat.lt_of_succ_lt_succ hj)
        rw [show k + (j + 1) = k + 1 + j by omega]
        simp only [List.mem_cons]
        exact Or.inr (Or.inr (Or.inr (Or.inr hm)))

theorem bastion_attempts_first_success (host : String) (lp rp : Nat)
    (env : Nat → Nat × ProbeEnv) :
    ∀ (bs : List BastionInfo) (k i : Nat) (hi : i < bs.length) (ms : Nat),
      (∀ j, j < i → attempt_fails (env (k + j))) →
      (env (k + i)).2.opened_within 10 = true →
      (env (k + i)).2.probe = some ms →
      (bastion_attempts host lp rp env k bs).1 =
        some ⟨(env (k + i)).1, lp, rp, some host, (bs.get ⟨i, hi⟩).id,
          (bs.get ⟨i, hi⟩).name, true, some ms⟩ := by
  intro bs
  induction bs with
  | nil =>
    intro k i hi
    exact absurd hi (by simp)
  | cons b rest ih =>
    intro k i hi ms hfail hop hpr
    cases i with
    | zero =>
      rw [Nat.add_zero] at hop hpr
      rw [bastion_attempts_cons_ok hop hpr]
      rfl
    | succ i =>
      have hf : attempt_fails (env k) := by
        have := hfail 0 (by simp)
        simpa using this
      rw [bastion_attempts_cons_fail hf]
      have hrec := ih (k + 1) i (by simpa using Nat.lt_of_succ_lt_succ hi) ms
        (fun j hj => by
          have := hfail (j + 1) (by simpa using Nat.succ_lt_succ hj)
          rwa [show k + (j + 1) = k + 1 + j by omega] at this)
        (by rwa [show k + 1 + i = k + (i + 1) by omega])
        (by rwa [show k + 1 + i = k + (i + 1) by omega])
      simp only [hrec]
      rw [show k + 1 + i = k + (i + 1) by omega]
      rfl

theorem online_filter_eq_nil_iff {ssm_map : List (String × String)}
    {instances : List Instance} :
    (find_bastions ssm_map instances).filter (fun b => b.ssm_online) = [] ↔
      ∀ i ∈ instances, ¬ is_online_bastion ssm_map i := by
  rw [List.filter_eq_nil_iff]
  constructor
  · intro h i hi hob
    obtain ⟨b, hb, hon⟩ := exists_online_bastion_iff.mpr ⟨i, hi, hob⟩
    exact h b hb (by simp [hon])
  · intro h b hb hon
    obtain ⟨i, hi, hob⟩ := exists_online_bastion_iff.mp ⟨b, hb, by simpa using hon⟩
    exact h i hi hob

/-- C6: with no ALB path, start_url_tunnel_via_any_bastion fails
NoBastions when no ssm-online bastion exists; otherwise it tries each
online bastion in enumeration order under the 10 s port-open timeout
(start_tunnel_by_pattern, by contrast, succeeds under the 20 s window),
succeeds on the first bastion that both opens the port and elicits a
remote response, tears down (kill) and pauses (2 s sleep) after each
failed attempt, and when every bastion fails returns the aggregate
Tunnel error naming the number of bastions tried. -/
theorem claim_C6_multi_bastion_fallback (url : String) (local_port : Nat)
    (ssm_map : List (String × String)) (instances : List Instance)
    (env : Nat → Nat × ProbeEnv) :
    (let online := (find_bastions ssm_map instances).filter (fun b => b.ssm_online)
     let host := strip_url_to_host url
     let rp : Nat := if startsWithStr url "https://" then 443 else 80
     ((∀ i ∈ instances, ¬ is_online_bastion ssm_map i) →
        start_url_tunnel_via_any_bastion url local_port ssm_map instances env =
          (.error .NoBastions, [])) ∧
     (online ≠ [] → (∀ j, j < online.length → attempt_fails (env j)) →
        (start_url_tunnel_via_any_bastion url local_port ssm_map instances env).1 =
          .error (.Tunnel ("All " ++ toString online.length ++
            " bastion(s) failed to tunnel to " ++ host ++ ":" ++ toString rp)) ∧
        (start_url_tunnel_via_any_bastion url local_port ssm_map instances env).2.count
            (.slept 2) = online.length ∧
        (∀ j, j < online.length → TunnelEvent.killed (env j).1 ∈
          (start_url_tunnel_via_any_bastion url local_port ssm_map instances env).2)) ∧
     (∀ (i : Nat) (hi : i < online.length) (ms : Nat),
        (∀ j, j < i → attempt_fails (env j)) →
        (env i).2.opened_within 10 = true → (env i).2.probe = some ms →
        (start_url_tunnel_via_any_bastion url local_port ssm_map instances env).1 =
          .ok ⟨(env i).1, local_port, rp, some host, (online.get ⟨i, hi⟩).id,
            (online.get ⟨i, hi⟩).name, true, some ms⟩) ∧
     (∀ (pattern : String) (remote_port : Nat) (inst : Instance) (pid ms : Nat)
        (e : ProbeEnv),
        find_instance_by_name pattern instances = .ok inst →
        e.opened_within 20 = true → e.probe = some ms →
        start_tunnel_by_pattern pattern local_port remote_port instances pid e =
          (.ok ⟨pid, local_port, remote_port, none, inst.id, inst.name, true, some ms⟩,
            []))) := by
  refine ⟨?_, ?_, ?_, ?_⟩
  · intro hnone
    unfold start_url_tunnel_via_any_bastion
    rw [if_pos (by rw [List.isEmpty_iff]; exact online_filter_eq_nil_iff.mpr hnone)]
  · intro hne hfail
    have hemp : ((find_bastions ssm_map instances).filter (fun b => b.ssm_online)).isEmpty
        = false := by
      cases hcase : (find_bastions ssm_map instances).filter (fun b => b.ssm_online) with
      | nil => exact absurd hcase hne
      | cons x xs => simp
    have hall := bastion_attempts_all_fail (strip_url_to_host url) local_port
      (if startsWithStr url "https://" then 443 else 80) env
      ((find_bastions ssm_map instances).filter (fun b => b.ssm_online)) 0
      (fun j hj => by simpa using hfail j hj)
    unfold start_url_tunnel_via_any_bastion
    rw [if_neg (by rw [hemp]; exact Bool.false_ne_true)]
    rcases hatt : bastion_attempts (strip_url_to_host url) local_port
        (if startsWithStr url "https://" then 443 else 80) env 0
        ((find_bastions ssm_map instances).filter (fun b => b.ssm_online)) with ⟨r1, evs⟩
    rw [hatt] at hall
    cases r1 with
    | some tp => exact absurd hall.1 (by simp)
    | none =>
      refine ⟨rfl, hall.2.1, ?_⟩
      intro j hj
      simpa using hall.2.2 j hj
  · intro i hi ms hfail hop hpr
    have hemp : ((find_bastions ssm_map instances).filter (fun b => b.ssm_online)).isEmpty
        = false := by
      cases hcase : (find_bastions ssm_map instances).filter (fun b => b.ssm_online) with
      | nil => rw [hcase] at hi; exact absurd hi (by simp)
      | cons x xs => simp
    have hsucc := bastion_attempts_first_success (strip_url_to_host url) local_port
      (if startsWithStr url "https://" then 443 else 80) env
      ((find_bastions ssm_map instances).filter (fun b => b.ssm_online)) 0 i hi ms
      (fun j hj => by simpa using hfail j hj) (by simpa using hop) (by simpa using hpr)
    unfold start_url_tunnel_via_any_bastion
    rw [if_neg (by rw [hemp]; exact Bool.false_ne_true)]
    rcases hatt : bastion_attempts (strip_url_to_host url) local_port
        (if startsWithStr url "https://" then 443 else 80) env 0
        ((find_bastions ssm_map instances).filter (fun b => b.ssm_online)) with ⟨r1, evs⟩
    rw [hatt, Nat.zero_add] at hsucc
    cases r1 with
    | none => exact Option.noConfusion hsucc
    | some tp => exact congrArg Except.ok (Option.some.inj hsucc)
  · intro pattern remote_port inst pid ms e hfound hop hpr
    unfold start_tunnel_by_pattern
    rw [hfound, wait_and_probe_ok hop hpr]

/-- Witness for C6: two online bastions; the first attempt's port never
opens within 10 s, so it is killed and the loop pauses, and the second
bastion succeeds. -/
theorem claim_C6_witness :
    (let insts : List Instance :=
      [⟨"i-b1", "bastion-one", "t3.micro", .Running, none, none, .Online, none, [], []⟩,
       ⟨"i-b2", "bastion-two", "t3.micro", .Running, none, none, .Online, none, [], []⟩]
     let ssm := [("i-b1", "Online"), ("i-b2", "Online")]
     let env : Nat → Nat × ProbeEnv := fun k =>
       if k = 0 then (100, ⟨fun _ => false, none⟩) else (101, ⟨fun _ => true, some 7⟩)
     (start_url_tunnel_via_any_bastion "http://svc.test" 9000 ssm insts env).1 =
       .ok ⟨101, 9000, 80, some (strip_url_to_host "http://svc.test"), "i-b2",
         "bastion-two", true, some 7⟩) := by
  intro insts ssm env
  have h := (claim_C6_multi_bastion_fallback "http://svc.test" 9000 ssm insts env).2.2.1
    1 (by decide) 7
    (by
      intro j hj
      interval_cases j
      exact Or.inl rfl)
    rfl rfl
  simpa using h

/-! C10: find_instance_by_name succeeds exactly on unique matches. -/

/-- Spec-side predicate: the instance's display name contains the pattern
as a case-insensitive substring. -/
def name_matches (pattern : String) (i : Instance) : Prop :=
  (toLowerStr pattern).data <:+: (toLowerStr i.name).data

theorem containsStr_lower_iff (pattern : String) (i : Instance) :
    containsStr (toLowerStr i.name) (toLowerStr pattern) = true ↔ name_matches pattern i :=
  containsSub_iff_isInfix _ _

/-- C10: find_instance_by_name succeeds iff exactly one inventory
instance's display name contains the pattern as a case-insensitive
substring — zero matches yield NoInstance and two or more yield
MultipleInstances — and both pattern-based tunnel starts propagate the
failure without spawning or killing anything. -/
theorem claim_C10_unique_name_match :
    (∀ (pattern : String) (instances : List Instance),
      (∀ i ∈ instances, ¬ name_matches pattern i) →
      find_instance_by_name pattern instances = .error (.NoInstance pattern)) ∧
    (∀ (pattern : String) (pre post : List Instance) (i : Instance),
      name_matches pattern i →
      (∀ j ∈ pre, ¬ name_matches pattern j) → (∀ j ∈ post, ¬ name_matches pattern j) →
      find_instance_by_name pattern (pre ++ i :: post) = .ok i) ∧
    (∀ (pattern : String) (l1 l2 l3 : List Instance) (i1 i2 : Instance),
      name_matches pattern i1 → name_matches pattern i2 →
      ∃ msg, find_instance_by_name pattern (l1 ++ i1 :: l2 ++ i2 :: l3) =
        .error (.MultipleInstances msg)) ∧
    (∀ (pattern : String) (instances : List Instance) (err : AppError)
        (local_port remote_port pid : Nat) (e : ProbeEnv) (host : String),
      find_instance_by_name pattern instances = .error err →
      start_tunnel_by_pattern pattern local_port remote_port instances pid e =
        (.error err, []) ∧
      start_remote_tunnel_via_pattern pattern host local_port remote_port instances pid e =
        (.error err, [])) := by
  refine ⟨?_, ?_, ?_, ?_⟩
  · intro pattern instances hno
    have hf : instances.filter
        (fun j => containsStr (toLowerStr j.name) (toLowerStr pattern)) = [] :=
      List.filter_eq_nil_iff.mpr
        (fun j hj hb => hno j hj ((containsStr_lower_iff pattern j).mp hb))
    simp only [find_instance_by_name]
    rw [hf]
  · intro pattern pre post i hi hpre hpost
    have hf : (pre ++ i :: post).filter
        (fun j => containsStr (toLowerStr j.name) (toLowerStr pattern)) = [i] := by
      rw [List.filter_append,
        List.filter_eq_nil_iff.mpr
          (fun j hj hb => hpre j hj ((containsStr_lower_iff pattern j).mp hb)),
        List.nil_append]
      simp only [List.filter_cons, (containsStr_lower_iff pattern i).mpr hi, if_true]
      rw [List.filter_eq_nil_iff.mpr
        (fun j hj hb => hpost j hj ((containsStr_lower_iff pattern j).mp hb))]
    simp only [find_instance_by_name]
    rw [hf]
  · intro pattern l1 l2 l3 i1 i2 h1 h2
    have hlen : 2 ≤ ((l1 ++ i1 :: l2 ++ i2 :: l3).filter
        (fun j => containsStr (toLowerStr j.name) (toLowerStr pattern))).length := by
      simp only [List.filter_append, List.filter_cons,
        (containsStr_lower_iff pattern i1).mpr h1,
        (containsStr_lower_iff pattern i2).mpr h2, if_true, List.length_append,
        List.length_cons]
      omega
    rcases hcase : (l1 ++ i1 :: l2 ++ i2 :: l3).filter
        (fun j => containsStr (toLowerStr j.name) (toLowerStr pattern)) with
      _ | ⟨x, _ | ⟨y, rest⟩⟩
    · rw [hcase] at hlen
      exact absurd hlen (by simp)
    · rw [hcase] at hlen
      exact absurd hlen (by simp)
    · refine ⟨pattern ++ " (" ++ toString (x :: y :: rest).length ++ " matches)", ?_⟩
      simp only [find_instance_by_name]
      rw [hcase]
  · intro pattern instances err local_port remote_port pid e host hfe
    constructor
    · unfold start_tunnel_by_pattern
      rw [hfe]
    · unfold start_remote_tunnel_via_pattern
      rw [hfe]

/-- Witness for C10 at a concrete inventory: "Web" matches one instance
case-insensitively, "db" matches none, "prod" matches two, and the
pattern tunnel start propagates the NoInstance failure. -/
theorem claim_C10_witness :
    (let i1 : Instance :=
      ⟨"i-1", "prod-web", "t3.micro", .Running, none, none, .Online, none, [], []⟩
     let i2 : Instance :=
      ⟨"i-2", "prod-api", "t3.micro", .Running, none, none, .Online, none, [], []⟩
     find_instance_by_name "Web" [i1, i2] = .ok i1 ∧
     find_instance_by_name "db" [i1, i2] = .error (.NoInstance "db") ∧
     (∃ msg, find_instance_by_name "prod" [i1, i2] = .error (.MultipleInstances msg)) ∧
     start_tunnel_by_pattern "db" 8080 80 [i1, i2] 55 ⟨fun _ => true, some 3⟩ =
       (.error (.NoInstance "db"), [])) := by
  intro i1 i2
  have hnodb : ∀ j ∈ [i1, i2], ¬ name_matches "db" j := by
    intro j hj
    rw [← containsStr_lower_iff]
    simp only [List.mem_cons, List.mem_singleton, i1, i2] at hj
    rcases hj with rfl | rfl | hj
    · decide
    · decide
    · exact absurd hj (by simp)
  refine ⟨?_, ?_, ?_, ?_⟩
  · have h := claim_C10_unique_name_match.2.1 "Web" [] [i2] i1
      ((containsStr_lower_iff _ _).mp (by decide))
      (by intro j hj; simp at hj)
      (by
        intro j hj
        rw [← containsStr_lower_iff]
        simp only [List.mem_singleton, i2] at hj
        subst hj
        decide)
    simpa using h
  · exact claim_C10_unique_name_match.1 "db" [i1, i2] hnodb
  · have h := claim_C10_unique_name_match.2.2.1 "prod" [] [] [] i1 i2
      ((containsStr_lower_iff _ _).mp (by decide))
      ((containsStr_lower_iff _ _).mp (by decide))
    simpa using h
  · have hfe := claim_C10_unique_name_match.1 "db" [i1, i2] hnodb
    exact (claim_C10_unique_name_match.2.2.2 "db" [i1, i2] (.NoInstance "db")
      8080 80 55 ⟨fun _ => true, some 3⟩ "internal.host" hfe).1

/-! C8: round-trip between the forwarding-agent invocation built by
start_direct_tunnel / start_remote_tunnel and the process-table parser
parse_tunnel_line.  The Rust standard library's u16::to_string and
str::parse::<u16> are modelled by a decimal printer and parser; serde_json
(an external crate) is modelled by a small JSON printer/parser covering
the value shapes the engine emits: escape-free strings, arrays and
objects. -/

/-- Decimal digit character. -/
def digitChar (d : Nat) : Char := Char.ofNat (48 + d)

def natToCharsAux : Nat → Nat → List Char
  | 0, n => [digitChar n]
  | fuel + 1, n =>
    if n < 10 then [digitChar n]
    else natToCharsAux fuel (n / 10) ++ [digitChar (n % 10)]

/-- Model of u16::to_string (decimal, no sign, no leading zeros). -/
def natToChars (n : Nat) : List Char := natToCharsAux n n

def digitVal (c : Char) : Nat := c.toNat - 48

def parseNatAux (acc : Nat) : List Char → Option Nat
  | [] => some acc
  | c :: cs => if c.isDigit then parseNatAux (acc * 10 + digitVal c) cs else none

/-- Decimal parser: fails on the empty string or any non-digit. -/
def parseNatDigits : List Char → Option Nat
  | [] => none
  | cs => parseNatAux 0 cs

/-- Model of str::parse::<u16>: all-digit decimal within the u16 range. -/
def parse_u16 (cs : List Char) : Option Nat :=
  match parseNatDigits cs with
  | some n => if n ≤ 65535 then some n else none
  | none => none

theorem digitChar_spec (d : Nat) (h : d < 10) :
    (digitChar d).isDigit = true ∧ digitVal (digitChar d) = d ∧
    '0' ≤ digitChar d ∧ digitChar d ≤ '9' := by
  interval_cases d <;> exact ⟨rfl, rfl, by decide, by decide⟩

theorem parseNatAux_append (acc : Nat) (xs ys : List Char) :
    parseNatAux acc (xs ++ ys) =
      match parseNatAux acc xs with
      | some a => parseNatAux a ys
      | none => none := by
  induction xs generalizing acc with
  | nil => rfl
  | cons c cs ih =>
    simp only [List.cons_append, parseNatAux]
    by_cases hc : c.isDigit
    · rw [if_pos hc, if_pos hc]
      exact ih _
    · rw [if_neg hc, if_neg hc]

theorem natToCharsAux_parse (fuel : Nat) :
    ∀ n, n ≤ fuel → ∀ acc,
      parseNatAux acc (natToCharsAux fuel n) =
        some (acc * 10 ^ (natToCharsAux fuel n).length + n) := by
  induction fuel with
  | zero =>
    intro n hn acc
    interval_cases n
    simp [natToCharsAux, parseNatAux, digitChar, digitVal]
  | succ fuel ih =>
    intro n hn acc
    by_cases h10 : n < 10
    · obtain ⟨hd, hv, -, -⟩ := digitChar_spec n h10
      simp only [natToCharsAux, if_pos h10, parseNatAux, hd, if_true, hv,
        List.length_singleton]
      norm_num
    · have hdiv : n / 10 ≤ fuel := by omega
      obtain ⟨hd, hv, -, -⟩ := digitChar_spec (n % 10) (Nat.mod_lt n (by omega))
      simp only [natToCharsAux, if_neg h10]
      rw [parseNatAux_append, ih (n / 10) hdiv acc]
      simp only [parseNatAux, hd, if_true, hv, List.length_append,
        List.length_singleton]
      have : (acc * 10 ^ (natToCharsAux fuel (n / 10)).length + n / 10) * 10 + n % 10 =
          acc * 10 ^ ((natToCharsAux fuel (n / 10)).length + 1) + n := by
        rw [pow_succ]
        have := Nat.div_add_mod n 10
        ring_nf
        omega
      rw [this]

theorem natToChars_ne_nil (n : Nat) : natToChars n ≠ [] := by
  unfold natToChars
  cases hn : n with
  | zero => simp [natToCharsAux]
  | succ m =>
    simp only [natToCharsAux]
    by_cases h10 : m + 1 < 10
    · simp [h10]
    · rw [if_neg h10]
      simp

theorem parseNatDigits_natToChars (n : Nat) :
    parseNatDigits (natToChars n) = some n := by
  have h := natToCharsAux_parse n n (le_refl n) 0
  have hne := natToChars_ne_nil n
  unfold natToChars at hne ⊢
  cases hcase : natToCharsAux n n with
  | nil => exact absurd hcase hne
  | cons c cs =>
    rw [hcase] at h
    simp only [parseNatDigits]
    rw [← hcase] at h ⊢
    rw [h]
    simp

theorem parse_u16_natToChars (n : Nat) (h : n ≤ 65535) :
    parse_u16 (natToChars n) = some n := by
  unfold parse_u16
  rw [parseNatDigits_natToChars]
  simp [h]

theorem natToChars_digits (fuel : Nat) :
    ∀ n, n ≤ fuel → ∀ c ∈ natToCharsAux fuel n, '0' ≤ c ∧ c ≤ '9' := by
  induction fuel with
  | zero =>
    intro n hn c hc
    interval_cases n
    simp only [natToCharsAux, List.mem_singleton] at hc
    subst hc
    exact ⟨by decide, by decide⟩
  | succ fuel ih =>
    intro n hn c hc
    by_cases h10 : n < 10
    · simp only [natToCharsAux, if_pos h10, List.mem_singleton] at hc
      subst hc
      obtain ⟨-, -, hl, hr⟩ := digitChar_spec n h10
      exact ⟨hl, hr⟩
    · simp only [natToCharsAux, if_neg h10, List.mem_append, List.mem_singleton] at hc
      rcases hc with hc | hc
      · exact ih (n / 10) (by omega) c hc
      · subst hc
        obtain ⟨-, -, hl, hr⟩ := digitChar_spec (n % 10) (Nat.mod_lt n (by omega))
        exact ⟨hl, hr⟩

mutual
/-- JSON values of the shapes the engine renders and parses. -/
inductive Json where
  | str (s : List Char)
  | arr (xs : JsonList)
  | obj (fs : JsonFields)
inductive JsonList where
  | nil
  | cons (hd : Json) (tl : JsonList)
inductive JsonFields where
  | fnil
  | fcons (key : List Char) (val : Json) (tl : JsonFields)
end

mutual
/-- Compact JSON rendering: exactly the text serde_json/format! produce
for these shapes (no whitespace, no escapes). -/
def renderJson : Json → List Char
  | .str s => '"' :: s ++ ['"']
  | .arr xs => '[' :: renderList xs ++ [']']
  | .obj fs => '{' :: renderFields fs ++ ['}']
def renderList : JsonList → List Char
  | .nil => []
  | .cons v .nil => renderJson v
  | .cons v (.cons w tl) => renderJson v ++ ',' :: renderList (.cons w tl)
def renderFields : JsonFields → List Char
  | .fnil => []
  | .fcons k v .fnil => '"' :: k ++ '"' :: ':' :: renderJson v
  | .fcons k v (.fcons k2 v2 tl) =>
      '"' :: k ++ '"' :: ':' :: renderJson v ++ ',' :: renderFields (.fcons k2 v2 tl)
end

mutual
/-- Nesting budget of a value: an upper bound for the parser fuel. -/
def jsizeV : Json → Nat
  | .str _ => 1
  | .arr xs => 1 + jsizeL xs
  | .obj fs => 1 + jsizeF fs
def jsizeL : JsonList → Nat
  | .nil => 0
  | .cons v tl => 1 + jsizeV v + jsizeL tl
def jsizeF : JsonFields → Nat
  | .fnil => 0
  | .fcons _ v tl => 1 + jsizeV v + jsizeF tl
end

/-- Strings that render and scan verbatim: no quote, no escape, and no
brace (so the process-line brace matcher cannot be confused). -/
def safeChars (s : List Char) : Prop :=
  '"' ∉ s ∧ '\\' ∉ s ∧ '{' ∉ s ∧ '}' ∉ s

mutual
def safeV : Json → Prop
  | .str s => safeChars s
  | .arr xs => xs ≠ .nil ∧ safeL xs
  | .obj fs => fs ≠ .fnil ∧ safeF fs
def safeL : JsonList → Prop
  | .nil => True
  | .cons v tl => safeV v ∧ safeL tl
def safeF : JsonFields → Prop
  | .fnil => True
  | .fcons k v tl => safeChars k ∧ safeV v ∧ safeF tl
end

/-- Body of a JSON string literal: everything up to the closing quote. -/
def parseStringBody : List Char → Option (List Char × List Char)
  | [] => none
  | c :: cs =>
    if c = '"' then some ([], cs)
    else
      match parseStringBody cs with
      | some (s, rest) => some (c :: s, rest)
      | none => none

mutual
/-- Recursive-descent JSON parser (fuel-bounded), the model of
serde_json::from_str on the value shapes the engine emits (non-empty
arrays and objects, escape-free strings). -/
def parseVal : Nat → List Char → Option (Json × List Char)
  | 0, _ => none
  | _ + 1, [] => none
  | fuel + 1, c :: cs =>
    if c = '"' then
      match parseStringBody cs with
      | some (s, rest) => some (.str s, rest)
      | none => none
    else if c = '[' then
      match parseItems fuel cs with
      | some (xs, rest) => some (.arr xs, rest)
      | none => none
    else if c = '{' then
      match parseMembers fuel cs with
      | some (fs, rest) => some (.obj fs, rest)
      | none => none
    else none
def parseItems : Nat → List Char → Option (JsonList × List Char)
  | 0, _ => none
  | fuel + 1, cs =>
    match parseVal fuel cs with
    | some (v, rest) =>
      match rest with
      | ',' :: rest2 =>
        match parseItems fuel rest2 with
        | some (xs, rest3) => some (.cons v xs, rest3)
        | none => none
      | ']' :: rest2 => some (.cons v .nil, rest2)
      | _ => none
    | none => none
def parseMembers : Nat → List Char → Option (JsonFields × List Char)
  | 0, _ => none
  | fuel + 1, cs =>
    match cs with
    | '"' :: cs1 =>
      match parseStringBody cs1 with
      | some (k, rest) =>
        match rest with
        | ':' :: rest1 =>
          match parseVal fuel rest1 with
          | some (v, rest2) =>
            match rest2 with
            | ',' :: rest3 =>
              match parseMembers fuel rest3 with
              | some (fs, rest4) => some (.fcons k v fs, rest4)
              | none => none
            | '}' :: rest3 => some (.fcons k v .fnil, rest3)
            | _ => none
          | none => none
        | _ => none
      | none => none
    | _ => none
end

/-- Model of serde_json::from_str: one value consuming the whole input. -/
def jparse (cs : List Char) : Option Json :=
  match parseVal cs.length cs with
  | some (v, []) => some v
  | _ => none

theorem parseStringBody_roundtrip {s : List Char} (h : '"' ∉ s) (rest : List Char) :
    parseStringBody (s ++ '"' :: rest) = some (s, rest) := by
  induction s with
  | nil => simp [parseStringBody]
  | cons c cs ih =>
    have hc : c ≠ '"' := fun hq => h (hq ▸ List.mem_cons_self c cs)
    simp only [List.cons_append, parseStringBody, if_neg hc]
    rw [show cs.append ('"' :: rest) = cs ++ '"' :: rest from rfl,
      ih (fun hm => h (List.mem_cons_of_mem c hm))]

theorem parse_render (fuel : Nat) :
    (∀ v rest, jsizeV v ≤ fuel → safeV v →
      parseVal fuel (renderJson v ++ rest) = some (v, rest)) ∧
    (∀ xs rest, xs ≠ .nil → jsizeL xs ≤ fuel → safeL xs →
      parseItems fuel (renderList xs ++ ']' :: rest) = some (xs, rest)) ∧
    (∀ fs rest, fs ≠ .fnil → jsizeF fs ≤ fuel → safeF fs →
      parseMembers fuel (renderFields fs ++ '}' :: rest) = some (fs, rest)) := by
  induction fuel with
  | zero =>
    refine ⟨?_, ?_, ?_⟩
    · intro v rest hsz _
      cases v <;> simp [jsizeV] at hsz
    · intro xs rest hne hsz _
      cases xs with
      | nil => exact absurd rfl hne
      | cons v tl => simp [jsizeL] at hsz
    · intro fs rest hne hsz _
      cases fs with
      | fnil => exact absurd rfl hne
      | fcons k v tl => simp [jsizeF] at hsz
  | succ fuel ih =>
    obtain ⟨ihV, ihL, ihF⟩ := ih
    refine ⟨?_, ?_, ?_⟩
    · intro v rest hsz hsafe
      cases v with
      | str s =>
        simp only [renderJson, List.cons_append, parseVal, if_pos rfl]
        rw [List.append_assoc, List.singleton_append,
          parseStringBody_roundtrip hsafe.1]
        simp
      | arr xs =>
        cases xs with
        | nil => exact absurd rfl hsafe.1
        | cons v tl =>
          simp only [renderJson, List.cons_append, parseVal,
            if_neg (by decide : ¬ ('[' : Char) = '"'), if_pos rfl]
          rw [List.append_assoc, List.singleton_append,
            ihL (.cons v tl) rest (fun h => JsonList.noConfusion h)
              (by simp only [jsizeV] at hsz; omega) hsafe.2]
          simp
      | obj fs =>
        cases fs with
        | fnil => exact absurd rfl hsafe.1
        | fcons k v tl =>
          simp only [renderJson, List.cons_append, parseVal,
            if_neg (by decide : ¬ ('{' : Char) = '"'),
            if_neg (by decide : ¬ ('{' : Char) = '['), if_pos rfl]
          rw [List.append_assoc, List.singleton_append,
            ihF (.fcons k v tl) rest (fun h => JsonFields.noConfusion h)
              (by simp only [jsizeV] at hsz; omega) hsafe.2]
          simp
    · intro xs rest hne hsz hsafe
      cases xs with
      | nil => exact absurd rfl hne
      | cons v tl =>
        cases tl with
        | nil =>
          simp only [renderList, parseItems]
          rw [ihV v (']' :: rest) (by simp only [jsizeL] at hsz; omega) hsafe.1]
          simp
        | cons w tl2 =>
          simp only [renderList, parseItems, List.append_assoc, List.cons_append]
          rw [ihV v (',' :: (renderList (JsonList.cons w tl2) ++ ']' :: rest))
            (by simp only [jsizeL] at hsz; omega) hsafe.1]
          simp [ihL (.cons w tl2) rest (fun h => JsonList.noConfusion h)
            (by simp only [jsizeL] at hsz ⊢; omega) hsafe.2]
    · intro fs rest hne hsz hsafe
      cases fs with
      | fnil => exact absurd rfl hne
      | fcons k v tl =>
        cases tl with
        | fnil =>
          simp only [renderFields, parseMembers, List.cons_append, List.append_assoc]
          rw [parseStringBody_roundtrip hsafe.1.1]
          simp [ihV v ('}' :: rest) (by simp only [jsizeF] at hsz; omega) hsafe.2.1]
        | fcons k2 v2 tl2 =>
          simp only [renderFields, parseMembers, List.cons_append, List.append_assoc]
          rw [parseStringBody_roundtrip hsafe.1.1]
          simp [ihV v (',' :: (renderFields (JsonFields.fcons k2 v2 tl2) ++ '}' :: rest))
            (by simp only [jsizeF] at hsz; omega) hsafe.2.1,
            ihF (.fcons k2 v2 tl2) rest (fun h => JsonFields.noConfusion h)
            (by simp only [jsizeF] at hsz ⊢; omega) hsafe.2.2]

theorem jsize_le_render_length (n : Nat) :
    (∀ v, jsizeV v ≤ n → jsizeV v + 1 ≤ (renderJson v).length) ∧
    (∀ xs, jsizeL xs ≤ n → jsizeL xs ≤ (renderList xs).length) ∧
    (∀ fs, jsizeF fs ≤ n → jsizeF fs ≤ (renderFields fs).length) := by
  induction n with
  | zero =>
    refine ⟨?_, ?_, ?_⟩
    · intro v hv
      cases v <;> simp [jsizeV] at hv
    · intro xs hxs
      cases xs with
      | nil => simp [jsizeL]
      | cons v tl => simp [jsizeL] at hxs
    · intro fs hfs
      cases fs with
      | fnil => simp [jsizeF]
      | fcons k v tl => simp [jsizeF] at hfs
  | succ n ih =>
    obtain ⟨ihV, ihL, ihF⟩ := ih
    refine ⟨?_, ?_, ?_⟩
    · intro v hv
      cases v with
      | str s => simp [jsizeV, renderJson]
      | arr xs =>
        have := ihL xs (by simp only [jsizeV] at hv; omega)
        simp only [jsizeV, renderJson, List.length_cons, List.length_append,
          List.length_singleton] at *
        omega
      | obj fs =>
        have := ihF fs (by simp only [jsizeV] at hv; omega)
        simp only [jsizeV, renderJson, List.length_cons, List.length_append,
          List.length_singleton] at *
        omega
    · intro xs hxs
      cases xs with
      | nil => simp [jsizeL]
      | cons v tl =>
        have h1 := ihV v (by simp only [jsizeL] at hxs; omega)
        cases tl with
        | nil =>
          simp only [jsizeL, renderList] at *
          omega
        | cons w tl2 =>
          have h2 := ihL (.cons w tl2) (by simp only [jsizeL] at hxs ⊢; omega)
          simp only [jsizeL, renderList, List.length_append, List.length_cons] at *
          omega
    · intro fs hfs
      cases fs with
      | fnil => simp [jsizeF]
      | fcons k v tl =>
        have h1 := ihV v (by simp only [jsizeF] at hfs; omega)
        cases tl with
        | fnil =>
          simp only [jsizeF, renderFields, List.length_cons, List.length_append] at *
          omega
        | fcons k2 v2 tl2 =>
          have h2 := ihF (.fcons k2 v2 tl2) (by simp only [jsizeF] at hfs ⊢; omega)
          simp only [jsizeF, renderFields, List.length_append, List.length_cons] at *
          omega

/-- serde model round-trip: a rendered safe value parses back to itself. -/
theorem jparse_render {v : Json} (hsafe : safeV v) :
    jparse (renderJson v) = some v := by
  unfold jparse
  have hlen : jsizeV v ≤ (renderJson v).length := by
    have := (jsize_le_render_length (jsizeV v)).1 v le_rfl
    omega
  have h := (parse_render (renderJson v).length).1 v [] hlen hsafe
  rw [List.append_nil] at h
  rw [h]

/-! The process-line brace scanner (extract_json_objects, tunnel.rs). -/

/-- Embedding of the inner while loop of extract_json_objects: scans from
just after an opening brace with the given depth, returning the balanced
slice (accumulated into acc) and the remainder; None when the input ends
unbalanced. -/
def takeBalanced : List Char → Nat → List Char → Option (List Char × List Char)
  | [], _, _ => none
  | c :: cs, depth, acc =>
    if c = '{' then takeBalanced cs (depth + 1) (acc ++ [c])
    else if c = '}' then
      if depth = 1 then some (acc ++ [c], cs)
      else takeBalanced cs (depth - 1) (acc ++ [c])
    else takeBalanced cs depth (acc ++ [c])

theorem takeBalanced_rest_length {cs : List Char} {d : Nat} {acc o rest : List Char}
    (h : takeBalanced cs d acc = some (o, rest)) : rest.length < cs.length := by
  induction cs generalizing d acc with
  | nil => exact absurd h (by simp [takeBalanced])
  | cons c cs ih =>
    simp only [takeBalanced] at h
    by_cases h1 : c = '{'
    · rw [if_pos h1] at h
      have := ih h
      simp only [List.length_cons]
      omega
    · rw [if_neg h1] at h
      by_cases h2 : c = '}'
      · rw [if_pos h2] at h
        by_cases h3 : d = 1
        · rw [if_pos h3] at h
          obtain ⟨-, h5⟩ := Prod.mk.injEq .. ▸ Option.some.inj h
          subst h5
          simp
        · rw [if_neg h3] at h
          have := ih h
          simp only [List.length_cons]
          omega
      · rw [if_neg h2] at h
        have := ih h
        simp only [List.length_cons]
        omega

/-- Embedding of extract_json_objects (tunnel.rs): collects every
top-level brace-balanced slice, stopping at an unbalanced tail. -/
def extract_json_objects : List Char → List (List Char)
  | [] => []
  | c :: cs =>
    if c = '{' then
      match h : takeBalanced cs 1 ['{'] with
      | some (obj, rest) => obj :: extract_json_objects rest
      | none => []
    else extract_json_objects cs
termination_by s => s.length
decreasing_by
  · exact Nat.lt_succ_of_lt (takeBalanced_rest_length h)
  · simp

theorem takeBalanced_step {c : Char} (h1 : c ≠ '{') (h2 : c ≠ '}')
    (cs : List Char) (d : Nat) (acc : List Char) :
    takeBalanced (c :: cs) d acc = takeBalanced cs d (acc ++ [c]) := by
  simp only [takeBalanced, if_neg h1, if_neg h2]

theorem takeBalanced_open (cs : List Char) (d : Nat) (acc : List Char) :
    takeBalanced ('{' :: cs) d acc = takeBalanced cs (d + 1) (acc ++ ['{']) := by
  simp [takeBalanced]

theorem takeBalanced_close_deep (cs : List Char) (d : Nat) (acc : List Char)
    (h : d ≠ 1) :
    takeBalanced ('}' :: cs) d acc = takeBalanced cs (d - 1) (acc ++ ['}']) := by
  simp [takeBalanced, h]

theorem takeBalanced_close_one (cs : List Char) (acc : List Char) :
    takeBalanced ('}' :: cs) 1 acc = some (acc ++ ['}'], cs) := by
  simp [takeBalanced]

theorem takeBalanced_no_brace {s : List Char} (h : ∀ c ∈ s, c ≠ '{' ∧ c ≠ '}') :
    ∀ (cs : List Char) (d : Nat) (acc : List Char),
      takeBalanced (s ++ cs) d acc = takeBalanced cs d (acc ++ s) := by
  induction s with
  | nil =>
    intro cs d acc
    rw [List.nil_append, List.append_nil]
  | cons c t ih =>
    intro cs d acc
    obtain ⟨h1, h2⟩ := h c (by simp)
    rw [List.cons_append, takeBalanced_step h1 h2,
      ih (fun x hx => h x (List.mem_cons_of_mem c hx)) cs d (acc ++ [c])]
    rw [List.append_assoc, List.singleton_append]

theorem safeChars_no_brace {s : List Char} (h : safeChars s) :
    ∀ c ∈ s, c ≠ '{' ∧ c ≠ '}' := by
  intro c hc
  exact ⟨fun he => h.2.2.1 (he ▸ hc), fun he => h.2.2.2 (he ▸ hc)⟩

theorem scan_render (n : Nat) :
    (∀ v, jsizeV v ≤ n → safeV v → ∀ (cs : List Char) (d : Nat) (acc : List Char),
      1 ≤ d →
      takeBalanced (renderJson v ++ cs) d acc = takeBalanced cs d (acc ++ renderJson v)) ∧
    (∀ xs, jsizeL xs ≤ n → safeL xs → ∀ (cs : List Char) (d : Nat) (acc : List Char),
      1 ≤ d →
      takeBalanced (renderList xs ++ cs) d acc =
        takeBalanced cs d (acc ++ renderList xs)) ∧
    (∀ fs, jsizeF fs ≤ n → safeF fs → ∀ (cs : List Char) (d : Nat) (acc : List Char),
      1 ≤ d →
      takeBalanced (renderFields fs ++ cs) d acc =
        takeBalanced cs d (acc ++ renderFields fs)) := by
  induction n with
  | zero =>
    refine ⟨?_, ?_, ?_⟩
    · intro v hv
      cases v <;> simp [jsizeV] at hv
    · intro xs hxs _ cs d acc _
      cases xs with
      | nil => simp [renderList]
      | cons v tl => simp [jsizeL] at hxs
    · intro fs hfs _ cs d acc _
      cases fs with
      | fnil => simp [renderFields]
      | fcons k v tl => simp [jsizeF] at hfs
  | succ n ih =>
    obtain ⟨ihV, ihL, ihF⟩ := ih
    refine ⟨?_, ?_, ?_⟩
    · intro v hv hsafe cs d acc hd
      cases v with
      | str s =>
        apply takeBalanced_no_brace
        intro c hc
        refine ⟨fun he => ?_, fun he => ?_⟩
        · subst he
          simp [renderJson] at hc
          exact hsafe.2.2.1 hc
        · subst he
          simp [renderJson] at hc
          exact hsafe.2.2.2 hc
      | arr xs =>
        have e : renderJson (Json.arr xs) = '[' :: (renderList xs ++ [']']) := by
          simp [renderJson]
        rw [e, List.cons_append, takeBalanced_step (by decide) (by decide),
          List.append_assoc, List.singleton_append,
          ihL xs (by simp only [jsizeV] at hv; omega) hsafe.2 _ d _ hd,
          takeBalanced_step (by decide : (']' : Char) ≠ '{') (by decide)]
        congr 1
        simp
      | obj fs =>
        have e : renderJson (Json.obj fs) = '{' :: (renderFields fs ++ ['}']) := by
          simp [renderJson]
        rw [e, List.cons_append, takeBalanced_open, List.append_assoc,
          List.singleton_append,
          ihF fs (by simp only [jsizeV] at hv; omega) hsafe.2 _ (d + 1) _ (by omega),
          takeBalanced_close_deep _ _ _ (by omega),
          show d + 1 - 1 = d from rfl]
        congr 1
        simp
    · intro xs hxs hsafe cs d acc hd
      cases xs with
      | nil => simp [renderList]
      | cons v tl =>
        cases tl with
        | nil =>
          have e : renderList (JsonList.cons v JsonList.nil) = renderJson v := by
            simp [renderList]
          rw [e]
          exact ihV v (by simp only [jsizeL] at hxs; omega) hsafe.1 cs d acc hd
        | cons w tl2 =>
          have e : renderList (JsonList.cons v (JsonList.cons w tl2)) =
              renderJson v ++ ',' :: renderList (JsonList.cons w tl2) := by
            simp [renderList]
          rw [e, List.append_assoc, List.cons_append,
            ihV v (by simp only [jsizeL] at hxs; omega) hsafe.1 _ d _ hd,
            takeBalanced_step (by decide : (',' : Char) ≠ '{') (by decide),
            ihL (.cons w tl2) (by simp only [jsizeL] at hxs ⊢; omega) hsafe.2 _ d _ hd]
          congr 1
          simp
    · intro fs hfs hsafe cs d acc hd
      cases fs with
      | fnil => simp [renderFields]
      | fcons k v tl =>
        have hkey : ∀ c ∈ '"' :: k ++ ['"', ':'], c ≠ '{' ∧ c ≠ '}' := by
          intro c hc
          refine ⟨fun he => ?_, fun he => ?_⟩
          · subst he
            simp at hc
            exact hsafe.1.2.2.1 hc
          · subst he
            simp at hc
            exact hsafe.1.2.2.2 hc
        cases tl with
        | fnil =>
          have e : renderFields (JsonFields.fcons k v JsonFields.fnil) ++ cs =
              ('"' :: k ++ ['"', ':']) ++ (renderJson v ++ cs) := by
            simp [renderFields]
          rw [e, takeBalanced_no_brace hkey,
            ihV v (by simp only [jsizeF] at hfs; omega) hsafe.2.1 _ d _ hd]
          congr 1
          simp [renderFields]
        | fcons k2 v2 tl2 =>
          have e : renderFields (JsonFields.fcons k v (JsonFields.fcons k2 v2 tl2)) ++ cs =
              ('"' :: k ++ ['"', ':']) ++ (renderJson v ++
                (',' :: (renderFields (JsonFields.fcons k2 v2 tl2) ++ cs))) := by
            simp [renderFields]
          rw [e, takeBalanced_no_brace hkey,
            ihV v (by simp only [jsizeF] at hfs; omega) hsafe.2.1 _ d _ hd,
            takeBalanced_step (by decide : (',' : Char) ≠ '{') (by decide),
            ihF (.fcons k2 v2 tl2) (by simp only [jsizeF] at hfs ⊢; omega)
              hsafe.2.2 _ d _ hd]
          congr 1
          simp [renderFields]


theorem extract_cons_not_brace {c : Char} (h : c ≠ '{') (cs : List Char) :
    extract_json_objects (c :: cs) = extract_json_objects cs := by
  rw [extract_json_objects]
  simp [h]

theorem extract_skip {s : List Char} (h : ∀ c ∈ s, c ≠ '{') (t : List Char) :
    extract_json_objects (s ++ t) = extract_json_objects t := by
  induction s with
  | nil => rw [List.nil_append]
  | cons c r ih =>
    rw [List.cons_append, extract_cons_not_brace (h c (by simp))]
    exact ih (fun x hx => h x (List.mem_cons_of_mem c hx))

theorem extract_cons_brace {cs obj rest : List Char}
    (h : takeBalanced cs 1 ['{'] = some (obj, rest)) :
    extract_json_objects ('{' :: cs) = obj :: extract_json_objects rest := by
  rw [extract_json_objects]
  rw [if_pos rfl]
  split
  next o r heq =>
    rw [h] at heq
    obtain ⟨h1, h2⟩ := Prod.mk.injEq .. ▸ Option.some.inj heq
    rw [h1, h2]
  next heq =>
    rw [h] at heq
    exact Option.noConfusion heq

theorem extract_obj {fs : JsonFields} (hsafe : safeV (.obj fs)) (t : List Char) :
    extract_json_objects (renderJson (.obj fs) ++ t) =
      renderJson (.obj fs) :: extract_json_objects t := by
  have e : renderJson (Json.obj fs) = '{' :: (renderFields fs ++ ['}']) := by
    simp [renderJson]
  have hbal : takeBalanced ((renderFields fs ++ ['}']) ++ t) 1 ['{'] =
      some ('{' :: (renderFields fs ++ ['}']), t) := by
    rw [List.append_assoc, List.singleton_append,
      (scan_render (jsizeF fs)).2.2 fs le_rfl hsafe.2 _ 1 _ le_rfl,
      takeBalanced_close_one]
    simp
  rw [e, List.cons_append, extract_cons_brace hbal]

theorem extract_nil : extract_json_objects [] = [] := by
  rw [extract_json_objects]

/-- Model of str::splitn(2, pat).nth(1): the remainder after the first
occurrence of pat, None when pat does not occur. -/
def splitOnceAfter (pat : List Char) (s : List Char) : Option (List Char) :=
  if pat.isPrefixOf s then some (s.drop pat.length)
  else
    match s with
    | [] => none
    | _ :: cs => splitOnceAfter pat cs
termination_by s.length
decreasing_by simp

theorem splitOnceAfter_here {pat s : List Char} :
    splitOnceAfter pat (pat ++ s) = some s := by
  rw [splitOnceAfter.eq_def,
    if_pos (List.isPrefixOf_iff_prefix.mpr (List.prefix_append pat s)),
    List.drop_left]

theorem splitOnceAfter_cons {pat : List Char} {p c : Char} {ps cs : List Char}
    (hpat : pat = p :: ps) (hne : p ≠ c) :
    splitOnceAfter pat (c :: cs) = splitOnceAfter pat cs := by
  rw [splitOnceAfter.eq_def, if_neg]
  subst hpat
  intro hpre
  simp only [List.isPrefixOf, Bool.and_eq_true, beq_iff_eq] at hpre
  exact hne hpre.1

/-! Field extraction of parse_tunnel_line (tunnel.rs). -/

def jsonGetFields : JsonFields → List Char → Option Json
  | .fnil, _ => none
  | .fcons k v tl, key => if k = key then some v else jsonGetFields tl key

/-- Model of serde_json::Value::get: field lookup on objects, None on any
other value. -/
def jsonGet (v : Json) (key : List Char) : Option Json :=
  match v with
  | .obj fs => jsonGetFields fs key
  | _ => none

structure TunnelFields where
  local_port : Nat
  remote_port : Nat
  remote_host : Option (List Char)
  instance_id : List Char
deriving Repr, DecidableEq

/-- One iteration of parse_tunnel_line's object loop (tunnel.rs lines
104-126): Target sets the instance id; the port/host parameters are read
from the Parameters grouping when present, else from the top level; a
port assignment parses the first array element, defaulting to 0. -/
def apply_json_object (f : TunnelFields) (v : Json) : TunnelFields :=
  let f1 := match jsonGet v "Target".data with
    | some (.str t) => { f with instance_id := t }
    | _ => f
  let params := (jsonGet v "Parameters".data).getD v
  let f2 := match jsonGet params "localPortNumber".data with
    | some (.arr (.cons (.str p) _)) => { f1 with local_port := (parse_u16 p).getD 0 }
    | _ => f1
  let f3 := match jsonGet params "portNumber".data with
    | some (.arr (.cons (.str p) _)) => { f2 with remote_port := (parse_u16 p).getD 0 }
    | _ => f2
  match jsonGet params "host".data with
  | some (.arr (.cons (.str h) _)) => { f3 with remote_host := some h }
  | _ => f3

/-- Embedding of parse_tunnel_line (tunnel.rs): splits at the
forwarding-agent token, extracts the brace-balanced slices, folds every
slice that parses as JSON into the field accumulator, and demands a
non-zero local port.  port_open and probe are the oracles for the
test_port and probe_remote calls. -/
def parse_tunnel_line (line : List Char) (pid : Nat) (port_open : Bool)
    (probe : Option Nat) : Option TunnelProcess :=
  match splitOnceAfter "session-manager-plugin".data line with
  | none => none
  | some after =>
    let objs := extract_json_objects after
    let f := objs.foldl (fun f cs =>
      match jparse cs with
      | some v => apply_json_object f v
      | none => f) (⟨0, 0, none, []⟩ : TunnelFields)
    if f.local_port = 0 then none
    else
      some ⟨pid, f.local_port, f.remote_port,
        f.remote_host.map (fun h => (⟨h⟩ : String)),
        ⟨f.instance_id⟩, ⟨(f.remote_host.getD f.instance_id)⟩,
        port_open, if port_open then probe else none⟩

/-- The --parameters JSON built by start_direct_tunnel (tunnel.rs line
182): renderJson of this value is exactly the format! output. -/
def direct_tunnel_params (remote_port local_port : Nat) : Json :=
  .obj (.fcons "portNumber".data (.arr (.cons (.str (natToChars remote_port)) .nil))
    (.fcons "localPortNumber".data (.arr (.cons (.str (natToChars local_port)) .nil))
      .fnil))

/-- The --parameters JSON built by start_remote_tunnel (tunnel.rs line
197). -/
def remote_tunnel_params (host : List Char) (remote_port local_port : Nat) : Json :=
  .obj (.fcons "host".data (.arr (.cons (.str host) .nil))
    (.fcons "portNumber".data (.arr (.cons (.str (natToChars remote_port)) .nil))
      (.fcons "localPortNumber".data (.arr (.cons (.str (natToChars local_port)) .nil))
        .fnil)))

theorem safeChars_natToChars (n : Nat) : safeChars (natToChars n) := by
  refine ⟨?_, ?_, ?_, ?_⟩ <;> intro hm <;>
    obtain ⟨hl, hr⟩ := natToChars_digits n n le_rfl _ hm
  · exact absurd hl (by decide)
  · exact absurd hr (by decide)
  · exact absurd hr (by decide)
  · exact absurd hr (by decide)

/-- The argv JSON of the spawned forwarding-agent process for a relay
tunnel: Target, DocumentName, and the forwarding parameters nested under
the Parameters grouping. -/
def plugin_arg_json (iid host : List Char) (remote_port local_port : Nat) : Json :=
  .obj (.fcons "Target".data (.str iid)
    (.fcons "DocumentName".data (.str "AWS-StartPortForwardingSessionToRemoteHost".data)
      (.fcons "Parameters".data (remote_tunnel_params host remote_port local_port)
        .fnil)))

/-- The session blob that precedes the argument object on the agent's
command line. -/
def session_blob : Json :=
  .obj (.fcons "SessionId".data (.str "sid".data)
    (.fcons "TokenValue".data (.str "tok".data) .fnil))

/-- A ps pid,args line of the spawned forwarding-agent process (relay
mode, Parameters nested). -/
def plugin_ps_line (iid host : List Char) (remote_port local_port : Nat) : List Char :=
  "12345 session-manager-plugin ".data ++ renderJson session_blob ++
    " eu-west-1 StartSession default ".data ++
    renderJson (plugin_arg_json iid host remote_port local_port) ++
    " https://ssm.eu-west-1.amazonaws.com".data

/-- A process-table line where the forwarding parameters appear inlined
at top level (no Parameters grouping), as in the direct aws invocation. -/
def inline_ps_line (remote_port local_port : Nat) : List Char :=
  "999 session-manager-plugin ".data ++ renderJson (direct_tunnel_params remote_port local_port)

theorem split_plugin_line (x : List Char) :
    splitOnceAfter "session-manager-plugin".data ("12345 session-manager-plugin ".data ++ x) =
      some (' ' :: x) := by
  have e0 : "12345 session-manager-plugin ".data ++ x =
      '1' :: '2' :: '3' :: '4' :: '5' :: ' ' ::
        ("session-manager-plugin".data ++ (' ' :: x)) := by
    have : "12345 session-manager-plugin ".data =
        '1' :: '2' :: '3' :: '4' :: '5' :: ' ' ::
          ("session-manager-plugin".data ++ [' ']) := rfl
    rw [this]
    simp
  rw [e0, splitOnceAfter_cons rfl (by decide), splitOnceAfter_cons rfl (by decide),
    splitOnceAfter_cons rfl (by decide), splitOnceAfter_cons rfl (by decide),
    splitOnceAfter_cons rfl (by decide), splitOnceAfter_cons rfl (by decide),
    splitOnceAfter_here]

theorem split_inline_line (x : List Char) :
    splitOnceAfter "session-manager-plugin".data ("999 session-manager-plugin ".data ++ x) =
      some (' ' :: x) := by
  have e0 : "999 session-manager-plugin ".data ++ x =
      '9' :: '9' :: '9' :: ' ' ::
        ("session-manager-plugin".data ++ (' ' :: x)) := by
    have : "999 session-manager-plugin ".data =
        '9' :: '9' :: '9' :: ' ' :: ("session-manager-plugin".data ++ [' ']) := rfl
    rw [this]
    simp
  rw [e0, splitOnceAfter_cons rfl (by decide), splitOnceAfter_cons rfl (by decide),
    splitOnceAfter_cons rfl (by decide), splitOnceAfter_cons rfl (by decide),
    splitOnceAfter_here]

/-- C8: the round trip between the forwarding-agent invocation that
start_direct_tunnel / start_remote_tunnel construct and the process-table
parser: parsing the line recovers exactly the local port, remote port and
(for relay mode) remote host that were passed in, whether the parameters
appear inlined or nested under a Parameters grouping; the instance id is
recovered from the Target field and the display name prefers the remote
host. -/
theorem claim_C8_roundtrip (lp rp pid : Nat) (host iid : List Char)
    (port_open : Bool) (probe : Option Nat)
    (hlp1 : 1 ≤ lp) (hlp2 : lp ≤ 65535) (hrp : rp ≤ 65535)
    (hhost : safeChars host) (hiid : safeChars iid) :
    parse_tunnel_line (plugin_ps_line iid host rp lp) pid port_open probe =
      some ⟨pid, lp, rp, some ⟨host⟩, ⟨iid⟩, ⟨host⟩, port_open,
        if port_open then probe else none⟩ ∧
    parse_tunnel_line (inline_ps_line rp lp) pid port_open probe =
      some ⟨pid, lp, rp, none, "", "", port_open,
        if port_open then probe else none⟩ := by
  have hsafe_params : safeV (remote_tunnel_params host rp lp) := by
    refine ⟨fun h => JsonFields.noConfusion h, ?_, ?_, ?_⟩
    · exact ⟨by decide, by decide, by decide, by decide⟩
    · exact ⟨fun h => JsonList.noConfusion h, hhost, trivial⟩
    · refine ⟨⟨by decide, by decide, by decide, by decide⟩,
        ⟨fun h => JsonList.noConfusion h, safeChars_natToChars rp, trivial⟩, ?_, ?_, ?_⟩
      · exact ⟨by decide, by decide, by decide, by decide⟩
      · exact ⟨fun h => JsonList.noConfusion h, safeChars_natToChars lp, trivial⟩
      · trivial
  have hsafe_arg : safeV (plugin_arg_json iid host rp lp) := by
    refine ⟨fun h => JsonFields.noConfusion h,
      ⟨by decide, by decide, by decide, by decide⟩, hiid,
      ⟨by decide, by decide, by decide, by decide⟩,
      ⟨by decide, by decide, by decide, by decide⟩, ?_, ?_, ?_⟩
    · exact ⟨by decide, by decide, by decide, by decide⟩
    · exact hsafe_params
    · trivial
  have hsafe_sess : safeV session_blob := by
    refine ⟨fun h => JsonFields.noConfusion h, ?_⟩
    exact ⟨⟨by decide, by decide, by decide, by decide⟩,
      ⟨by decide, by decide, by decide, by decide⟩,
      ⟨by decide, by decide, by decide, by decide⟩,
      ⟨by decide, by decide, by decide, by decide⟩, trivial⟩
  have hlpne : ¬ lp = 0 := by omega
  constructor
  · have hsplit := split_plugin_line (renderJson session_blob ++
      " eu-west-1 StartSession default ".data ++
      renderJson (plugin_arg_json iid host rp lp) ++
      " https://ssm.eu-west-1.amazonaws.com".data)
    have hextract : extract_json_objects (' ' :: (renderJson session_blob ++
        " eu-west-1 StartSession default ".data ++
        renderJson (plugin_arg_json iid host rp lp) ++
        " https://ssm.eu-west-1.amazonaws.com".data)) =
        [renderJson session_blob, renderJson (plugin_arg_json iid host rp lp)] := by
      rw [extract_cons_not_brace (by decide)]
      rw [List.append_assoc, List.append_assoc]
      rw [show session_blob = Json.obj (.fcons "SessionId".data (.str "sid".data)
        (.fcons "TokenValue".data (.str "tok".data) .fnil)) from rfl]
      rw [extract_obj hsafe_sess]
      rw [extract_skip (s := " eu-west-1 StartSession default ".data) (by decide)]
      rw [show plugin_arg_json iid host rp lp = Json.obj (.fcons "Target".data (.str iid)
        (.fcons "DocumentName".data
          (.str "AWS-StartPortForwardingSessionToRemoteHost".data)
          (.fcons "Parameters".data (remote_tunnel_params host rp lp) .fnil))) from rfl]
      rw [extract_obj hsafe_arg]
      rw [show (" https://ssm.eu-west-1.amazonaws.com".data : List Char) =
        " https://ssm.eu-west-1.amazonaws.com".data ++ [] from by simp]
      rw [extract_skip (s := " https://ssm.eu-west-1.amazonaws.com".data) (by decide),
        extract_nil]
    unfold parse_tunnel_line plugin_ps_line
    rw [show "12345 session-manager-plugin ".data ++ renderJson session_blob ++
        " eu-west-1 StartSession default ".data ++
        renderJson (plugin_arg_json iid host rp lp) ++
        " https://ssm.eu-west-1.amazonaws.com".data =
        "12345 session-manager-plugin ".data ++ (renderJson session_blob ++
        " eu-west-1 StartSession default ".data ++
        renderJson (plugin_arg_json iid host rp lp) ++
        " https://ssm.eu-west-1.amazonaws.com".data) from by simp]
    rw [hsplit]
    simp only [hextract, List.foldl_cons, List.foldl_nil,
      jparse_render hsafe_sess, jparse_render hsafe_arg]
    rw [show apply_json_object (⟨0, 0, none, []⟩ : TunnelFields) session_blob =
      (⟨0, 0, none, []⟩ : TunnelFields) from rfl]
    rw [show apply_json_object (⟨0, 0, none, []⟩ : TunnelFields)
        (plugin_arg_json iid host rp lp) =
      (⟨(parse_u16 (natToChars lp)).getD 0, (parse_u16 (natToChars rp)).getD 0,
        some host, iid⟩ : TunnelFields) from rfl]
    rw [parse_u16_natToChars lp hlp2, parse_u16_natToChars rp hrp]
    simp [hlpne]
  · have hsafe_direct : safeV (direct_tunnel_params rp lp) := by
      refine ⟨fun h => JsonFields.noConfusion h,
        ⟨by decide, by decide, by decide, by decide⟩,
        ⟨fun h => JsonList.noConfusion h, safeChars_natToChars rp, trivial⟩, ?_, ?_, ?_⟩
      · exact ⟨by decide, by decide, by decide, by decide⟩
      · exact ⟨fun h => JsonList.noConfusion h, safeChars_natToChars lp, trivial⟩
      · trivial
    have hsplit := split_inline_line (renderJson (direct_tunnel_params rp lp))
    have hextract : extract_json_objects
        (' ' :: renderJson (direct_tunnel_params rp lp)) =
        [renderJson (direct_tunnel_params rp lp)] := by
      rw [extract_cons_not_brace (by decide)]
      rw [show renderJson (direct_tunnel_params rp lp) =
        renderJson (direct_tunnel_params rp lp) ++ [] from by simp]
      rw [show direct_tunnel_params rp lp = Json.obj
        (.fcons "portNumber".data (.arr (.cons (.str (natToChars rp)) .nil))
          (.fcons "localPortNumber".data (.arr (.cons (.str (natToChars lp)) .nil))
            .fnil)) from rfl]
      rw [extract_obj hsafe_direct, extract_nil]
      simp
    unfold parse_tunnel_line inline_ps_line
    rw [hsplit]
    simp only [hextract, List.foldl_cons, List.foldl_nil, jparse_render hsafe_direct]
    rw [show apply_json_object (⟨0, 0, none, []⟩ : TunnelFields)
        (direct_tunnel_params rp lp) =
      (⟨(parse_u16 (natToChars lp)).getD 0, (parse_u16 (natToChars rp)).getD 0,
        none, []⟩ : TunnelFields) from rfl]
    rw [parse_u16_natToChars lp hlp2, parse_u16_natToChars rp hrp]
    simp [hlpne]

/-- Witness for C8 at concrete ports, host and instance id. -/
theorem claim_C8_witness :
    parse_tunnel_line (plugin_ps_line "i-0abc12".data "internal.db.test".data 443 8080)
        4321 true (some 42) =
      some ⟨4321, 8080, 443, some "internal.db.test", "i-0abc12", "internal.db.test",
        true, some 42⟩ := by
  have h := (claim_C8_roundtrip 8080 443 4321 "internal.db.test".data "i-0abc12".data
    true (some 42) (by omega) (by omega) (by omega)
    ⟨by decide, by decide, by decide, by decide⟩
    ⟨by decide, by decide, by decide, by decide⟩).1
  simpa using h

end Awsx2
